import Mathlib

/-!
The program openrc-syslog-fs: a syslog-backed FUSE filesystem.

A shallow embedding of `openrc_syslog_fs.go`.

* Go strings are lists of characters (`GoString`); byte slices are lists of `UInt8`.
* The shared map `loggers : map[string]*syslog.Writer` is an association list living in
  the `World`; a `*syslog.Writer` is a `Writer` value carrying the address it was
  allocated at together with the arguments it was dialed with.
* `syslog.Dial` and `(*syslog.Writer).Write` are external: their outcome is an argument
  of the operation that calls them, and every call is recorded in the `World`.
-/

namespace OpenrcSyslogFs

/-- A Go `string`. -/
abbrev GoString := List Char

/-- A Go `[]byte`. -/
abbrev Bytes := List UInt8

/-! ## The parts of package `strings` the program calls -/

namespace Strings

/-- The call `strings.Split(s, sep)` for a separator of one character: the pieces of `s`
between the occurrences of `sep`; always at least one piece. -/
def Split : GoString → Char → List GoString
  | [], _ => [[]]
  | c :: cs, sep =>
    if c = sep then [] :: Split cs sep
    else (c :: (Split cs sep).headD []) :: (Split cs sep).tail

/-- The call `strings.Join(elems, sep)`. -/
def Join : List GoString → GoString → GoString
  | [], _ => []
  | [a], _ => a
  | a :: b :: rest, sep => a ++ sep ++ Join (b :: rest) sep

end Strings

/-! ## Constants of `log/syslog`, `syscall`, `os` and `bazil.org/fuse` -/

/-- Severity `syslog.LOG_ERR`. -/
def LOG_ERR : Nat := 3
/-- Severity `syslog.LOG_INFO`. -/
def LOG_INFO : Nat := 6
/-- Facility `syslog.LOG_DAEMON`. -/
def LOG_DAEMON : Nat := 3 <<< 3

/-- Errno `syscall.ENOENT`. -/
def ENOENT : Nat := 2
/-- Errno `syscall.EISDIR`. -/
def EISDIR : Nat := 21
/-- Errno `syscall.EINVAL`. -/
def EINVAL : Nat := 22

/-- Mode bit `os.ModeDir`. -/
def ModeDir : Nat := 1 <<< 31
/-- Mask `os.ModeType`: directory, symlink, named pipe, socket, device, character device,
irregular. -/
def ModeType : Nat :=
  1 <<< 31 ||| 1 <<< 27 ||| 1 <<< 25 ||| 1 <<< 24 ||| 1 <<< 26 ||| 1 <<< 21 ||| 1 <<< 19

/-- Method `os.FileMode.IsDir`. -/
def FileMode.IsDir (m : Nat) : Bool := m &&& ModeDir != 0
/-- Method `os.FileMode.IsRegular`. -/
def FileMode.IsRegular (m : Nat) : Bool := m &&& ModeType == 0

/-- Flag `fuse.OpenReadOnly`. -/
def OpenReadOnly : Nat := 0
/-- Flag `fuse.OpenWriteOnly`. -/
def OpenWriteOnly : Nat := 1
/-- Flag `fuse.OpenReadWrite`. -/
def OpenReadWrite : Nat := 2
/-- Mask `fuse.OpenAccessModeMask` (`O_ACCMODE`). -/
def OpenAccessModeMask : Nat := 3
/-- Flag `fuse.OpenAppend` (`O_APPEND`). -/
def OpenAppend : Nat := 0x400

/-- Flag `fuse.OpenNonblock` (`O_NONBLOCK`). -/
def OpenNonblock : Nat := 0x800

/-- Method `fuse.OpenFlags.IsReadOnly`. -/
def OpenFlags.IsReadOnly (fl : Nat) : Bool := fl &&& OpenAccessModeMask == OpenReadOnly
/-- Method `fuse.OpenFlags.IsWriteOnly`. -/
def OpenFlags.IsWriteOnly (fl : Nat) : Bool := fl &&& OpenAccessModeMask == OpenWriteOnly
/-- Method `fuse.OpenFlags.IsReadWrite`. -/
def OpenFlags.IsReadWrite (fl : Nat) : Bool := fl &&& OpenAccessModeMask == OpenReadWrite

/-- Response flag `fuse.OpenDirectIO`. -/
def OpenDirectIO : Nat := 1 <<< 0
/-- Response flag `fuse.OpenNonSeekable`. -/
def OpenNonSeekable : Nat := 1 <<< 2

/-- The literal `"stdout"`. -/
def stdoutSuffix : GoString := ['s', 't', 'd', 'o', 'u', 't']
/-- The literal `"stderr"`. -/
def stderrSuffix : GoString := ['s', 't', 'd', 'e', 'r', 'r']

/-! ## Data model -/

/-- A Go `error` value. -/
inductive Error where
  /-- A `fuse.Errno`. -/
  | errno (code : Nat)
  /-- The value of `errors.New(msg)`. -/
  | new (msg : String)
  /-- An error made by the log transport. -/
  | transport (code : Nat)
  deriving DecidableEq, Repr

/-- The arguments of one call `syslog.Dial(network, raddr, priority, tag)`. -/
structure DialCall where
  network : GoString
  raddr : GoString
  priority : Nat
  tag : GoString
  deriving DecidableEq, Repr

/-- A `*syslog.Writer`: the address of the connection and the arguments it was dialed
with. Two values with the same `addr` are the same connection instance. -/
structure Writer where
  addr : Nat
  call : DialCall
  deriving DecidableEq, Repr

/-- The type `Opts`. -/
structure Opts where
  SyslogNetwork : GoString
  SyslogAddress : GoString
  Permissions : Nat
  deriving DecidableEq, Repr

/-- The map type `map[string]*syslog.Writer`. -/
abbrev LoggerMap := List (GoString × Writer)

namespace LoggerMap

/-- The map read `v, ok := m[k]`. -/
def get : LoggerMap → GoString → Option Writer
  | [], _ => none
  | (k', v) :: rest, k => if k' = k then some v else get rest k

/-- The map assignment `m[k] = v`. -/
def set : LoggerMap → GoString → Writer → LoggerMap
  | [], k, v => [(k, v)]
  | (k', v') :: rest, k, v =>
    if k' = k then (k', v) :: rest else (k', v') :: set rest k v

/-- The keys of the map, in the order the model iterates over them. -/
def keys (m : LoggerMap) : List GoString := m.map Prod.fst

end LoggerMap

/-- The state the operations act on: the map shared by `FS` and every `Dir`, and the
calls made so far on the log transport. -/
structure World where
  /-- The map `FS.loggers`. -/
  loggers : LoggerMap
  /-- Every call of `syslog.Dial` so far, oldest first, whether it succeeded or not. -/
  dialed : List DialCall
  /-- Every call of `(*syslog.Writer).Write` so far, oldest first. -/
  sent : List (Writer × Bytes)
  deriving DecidableEq, Repr

/-- The state right after `mount` built `&FS{loggers: make(map[string]*syslog.Writer)}`. -/
def World.init : World := ⟨[], [], []⟩

/-- The outcome `syslog.Dial` would have for given arguments at the moment of the call:
`none` is success. -/
abbrev Dialer := DialCall → Option Error

/-- The type `File`. -/
structure File where
  file : Writer
  deriving DecidableEq, Repr

/-- The type `FileHandle`. -/
structure FileHandle where
  sl : Writer
  deriving DecidableEq, Repr

/-- The fields of `fuse.Attr` the program assigns. -/
structure Attr where
  Size : Nat
  Uid : Nat
  Gid : Nat
  Mode : Nat
  Mtime : Nat
  Ctime : Nat
  Crtime : Nat
  deriving DecidableEq, Repr

/-- The field of `fuse.LookupRequest` the program reads. -/
structure LookupRequest where
  Name : GoString
  deriving DecidableEq, Repr

/-- The field of `fuse.Dirent` the program assigns. -/
structure Dirent where
  Name : GoString
  deriving DecidableEq, Repr

/-- The fields of `fuse.CreateRequest` the program reads. -/
structure CreateRequest where
  Name : GoString
  Mode : Nat
  deriving DecidableEq, Repr

/-- The field of `fuse.CreateResponse` the program updates. -/
structure CreateResponse where
  Flags : Nat
  deriving DecidableEq, Repr

/-- The fields of `fuse.OpenRequest` the program reads. -/
structure OpenRequest where
  Dir : Bool
  Flags : Nat
  deriving DecidableEq, Repr

/-- The field of `fuse.OpenResponse` the program updates. -/
structure OpenResponse where
  Flags : Nat
  deriving DecidableEq, Repr

/-- The field of `fuse.WriteRequest` the program reads. -/
structure WriteRequest where
  Data : Bytes
  deriving DecidableEq, Repr

/-- The field of `fuse.WriteResponse` the program assigns. -/
structure WriteResponse where
  Size : Nat
  deriving DecidableEq, Repr

/-- What `Dir.Create` leaves behind: the returned node and handle or the returned error,
the response, and the state. -/
structure CreateOut where
  ret : Except Error (File × FileHandle)
  resp : CreateResponse
  world : World

/-- What `File.Open` leaves behind. -/
structure OpenOut where
  ret : Except Error FileHandle
  resp : OpenResponse

/-- What `FileHandle.Write` leaves behind. -/
structure WriteOut where
  err : Option Error
  resp : WriteResponse
  world : World

/-! ## Startup: the option handling of `main` -/

/-- Lines 42-54 of `main`: the options stored in `opts` from the values of `-syslog` and
`-perms`; `none` when `main` stops at the `log.Fatal` of line 49. What `main` does after
line 54 (the argument count, the mount) is not part of it. -/
def mainOpts (slAddress : GoString) (perms : Int) : Option Opts :=
  let permissions := (Int.land perms 0o222).toNat
  if slAddress = [] then
    some { SyslogNetwork := [], SyslogAddress := [], Permissions := permissions }
  else
    let sl := Strings.Split slAddress ':'
    if sl.length ≠ 3 then none
    else
      some { SyslogNetwork := sl.getD 0 [],
             SyslogAddress := sl.getD 1 [] ++ [':'] ++ sl.getD 2 [],
             Permissions := permissions }

/-! ## The directory node -/

/-- Method `(*Dir).Attr`. -/
def Dir.Attr (a : Attr) : Attr × Option Error :=
  ({ a with Mode := ModeDir ||| 0o755 }, none)

/-- Method `(*Dir).Lookup`. -/
def Dir.Lookup (req : LookupRequest) (w : World) : Except Error File :=
  match w.loggers.get req.Name with
  | some item => .ok { file := item }
  | none => .error (.errno ENOENT)

/-- Method `(*Dir).ReadDirAll`, iterating over the map in the order of the model. Go
leaves the order of a map iteration open: see `IsReadDirAll`. -/
def Dir.ReadDirAll (w : World) : List Dirent × Option Error :=
  (w.loggers.keys.map fun name => { Name := name }, none)

/-- The lists `(*Dir).ReadDirAll` may return: one `Dirent` per key, in any order. -/
def IsReadDirAll (w : World) (res : List Dirent) : Prop :=
  res.Perm (Dir.ReadDirAll w).1

/-- Lines 172-187 of `(*Dir).Create`: what the method does once the suffix has given the
priority. -/
def Dir.createWith (opts : Opts) (dial : Dialer) (req : CreateRequest)
    (resp : CreateResponse) (w : World) (parts : List GoString) (priority : Nat) :
    CreateOut :=
  let name := Strings.Join (parts.take (parts.length - 1)) ['.']
  let flags := resp.Flags ||| (OpenNonSeekable ||| OpenDirectIO)
  match w.loggers.get req.Name with
  | some item =>
    { ret := .ok ({ file := item }, { sl := item }), resp := { resp with Flags := flags },
      world := w }
  | none =>
    let call : DialCall :=
      { network := opts.SyslogNetwork, raddr := opts.SyslogAddress,
        priority := priority ||| LOG_DAEMON, tag := name }
    match dial call with
    | some err =>
      { ret := .error err, resp := resp, world := { w with dialed := w.dialed ++ [call] } }
    | none =>
      let logger : Writer := { addr := w.dialed.length, call := call }
      { ret := .ok ({ file := logger }, { sl := logger }),
        resp := { resp with Flags := flags },
        world := { w with loggers := w.loggers.set req.Name logger,
                          dialed := w.dialed ++ [call] } }

/-- Method `(*Dir).Create`. -/
def Dir.Create (opts : Opts) (dial : Dialer) (req : CreateRequest) (resp : CreateResponse)
    (w : World) : CreateOut :=
  if FileMode.IsDir req.Mode then
    { ret := .error (.errno EISDIR), resp := resp, world := w }
  else if !FileMode.IsRegular req.Mode then
    { ret := .error (.errno EINVAL), resp := resp, world := w }
  else
    let parts := Strings.Split req.Name '.'
    if parts.length ≤ 1 then
      { ret := .error (.new "No using specified"), resp := resp, world := w }
    else if parts.getD (parts.length - 1) [] = stderrSuffix then
      Dir.createWith opts dial req resp w parts LOG_ERR
    else if parts.getD (parts.length - 1) [] = stdoutSuffix then
      Dir.createWith opts dial req resp w parts LOG_INFO
    else
      { ret := .error (.new "Unsupported file extension"), resp := resp, world := w }

/-- Line 174 of `(*Dir).Create`: the read of the map. -/
def Dir.createRead (req : CreateRequest) (w : World) : Option Writer :=
  w.loggers.get req.Name

/-- Lines 175-187 of `(*Dir).Create`, run in state `w` with `read` the outcome of the map
read of line 174. -/
def Dir.createFinish (opts : Opts) (dial : Dialer) (req : CreateRequest)
    (resp : CreateResponse) (w : World) (parts : List GoString) (priority : Nat)
    (read : Option Writer) : CreateOut :=
  let name := Strings.Join (parts.take (parts.length - 1)) ['.']
  let flags := resp.Flags ||| (OpenNonSeekable ||| OpenDirectIO)
  match read with
  | some item =>
    { ret := .ok ({ file := item }, { sl := item }), resp := { resp with Flags := flags },
      world := w }
  | none =>
    let call : DialCall :=
      { network := opts.SyslogNetwork, raddr := opts.SyslogAddress,
        priority := priority ||| LOG_DAEMON, tag := name }
    match dial call with
    | some err =>
      { ret := .error err, resp := resp, world := { w with dialed := w.dialed ++ [call] } }
    | none =>
      let logger : Writer := { addr := w.dialed.length, call := call }
      { ret := .ok ({ file := logger }, { sl := logger }),
        resp := { resp with Flags := flags },
        world := { w with loggers := w.loggers.set req.Name logger,
                          dialed := w.dialed ++ [call] } }

/-- Method `(*Dir).Create` with its map read of line 174 done in state `wRead` and the
rest of the method, the dial of line 177 and the map write of line 182, done in state
`w`: the method as it runs when other operations come between its line 174 and its line
177. Nothing in the method or in `FS` keeps them from coming. -/
def Dir.CreateCut (opts : Opts) (dial : Dialer) (req : CreateRequest)
    (resp : CreateResponse) (wRead w : World) : CreateOut :=
  if FileMode.IsDir req.Mode then
    { ret := .error (.errno EISDIR), resp := resp, world := w }
  else if !FileMode.IsRegular req.Mode then
    { ret := .error (.errno EINVAL), resp := resp, world := w }
  else
    let parts := Strings.Split req.Name '.'
    if parts.length ≤ 1 then
      { ret := .error (.new "No using specified"), resp := resp, world := w }
    else if parts.getD (parts.length - 1) [] = stderrSuffix then
      Dir.createFinish opts dial req resp w parts LOG_ERR (Dir.createRead req wRead)
    else if parts.getD (parts.length - 1) [] = stdoutSuffix then
      Dir.createFinish opts dial req resp w parts LOG_INFO (Dir.createRead req wRead)
    else
      { ret := .error (.new "Unsupported file extension"), resp := resp, world := w }

/-! ## The file node and the file handle -/

/-- Method `(*File).Attr`; `uid` and `gid` are what `strconv.Atoi` gave for the current
user, `now` the three readings of `time.Now()`. -/
def File.Attr (opts : Opts) (uid gid : Int) (now : Nat × Nat × Nat) (a : Attr) :
    Attr × Option Error :=
  ({ a with Size := 0, Uid := (uid % 2 ^ 32).toNat, Gid := (gid % 2 ^ 32).toNat,
            Mode := opts.Permissions, Mtime := now.1, Ctime := now.2.1,
            Crtime := now.2.2 }, none)

/-- Method `(*File).Open`. -/
def File.Open (f : File) (req : OpenRequest) (resp : OpenResponse) : OpenOut :=
  if req.Dir then
    { ret := .error (.new "Dir request"), resp := resp }
  else if req.Flags = OpenReadOnly ∨ req.Flags = OpenReadWrite then
    { ret := .error (.new "Read request"), resp := resp }
  else
    { ret := .ok { sl := f.file },
      resp := { resp with Flags := resp.Flags ||| (OpenNonSeekable ||| OpenDirectIO) } }

/-- Method `(*FileHandle).Release`. -/
def FileHandle.Release (_fh : FileHandle) : Option Error := none

/-- Method `(*FileHandle).Write`; `slResult` is what `fh.sl.Write(req.Data)` returns, which
the method drops. -/
def FileHandle.Write (fh : FileHandle) (req : WriteRequest) (resp : WriteResponse)
    (_slResult : Nat × Option Error) (w : World) : WriteOut :=
  { err := none, resp := { resp with Size := req.Data.length },
    world := { w with sent := w.sent ++ [(fh.sl, req.Data)] } }

/-! ## The operations the filesystem host can dispatch -/

/-- One operation on a node or handle, with its arguments and the outcome of the
external calls it would make. -/
inductive Op where
  | dirAttr (a : Attr)
  | lookup (req : LookupRequest)
  | readDirAll
  | create (dial : Dialer) (req : CreateRequest) (resp : CreateResponse)
  | fileAttr (f : File) (uid gid : Int) (now : Nat × Nat × Nat) (a : Attr)
  | fileOpen (f : File) (req : OpenRequest) (resp : OpenResponse)
  | write (fh : FileHandle) (req : WriteRequest) (resp : WriteResponse)
      (slResult : Nat × Option Error)
  | release (fh : FileHandle)

/-- The state after one operation. -/
def Op.run (opts : Opts) : Op → World → World
  | .create dial req resp, w => (Dir.Create opts dial req resp w).world
  | .write fh req resp slResult, w => (FileHandle.Write fh req resp slResult w).world
  | .dirAttr _, w => w
  | .lookup _, w => w
  | .readDirAll, w => w
  | .fileAttr _ _ _ _ _, w => w
  | .fileOpen _ _ _, w => w
  | .release _, w => w

/-- The state after a sequence of operations, first to last. -/
def runOps (opts : Opts) (ops : List Op) (w : World) : World :=
  ops.foldl (fun acc op => op.run opts acc) w

/-- The state after a sequence of `Dir.Create` calls, first to last, each with the same
dial behaviour and a fresh response. -/
def createAll (opts : Opts) (dial : Dialer) (reqs : List CreateRequest) (w : World) :
    World :=
  reqs.foldl (fun acc req => (Dir.Create opts dial req { Flags := 0 } acc).world) w

/-- A dial that always succeeds. -/
def dialOk : Dialer := fun _ => none

/-- A dial that always fails with the given error. -/
def dialFail (e : Error) : Dialer := fun _ => some e

/-- The invariant of the map: every key is `l.stdout` or `l.stderr`, and the connection
stored under it is one recorded in the dial log, at the index that is its address, dialed
with the network and address of the options, the priority of the suffix with the facility
`LOG_DAEMON`, and the tag `l`. -/
def Consistent (opts : Opts) (w : World) : Prop :=
  ∀ k c, (k, c) ∈ w.loggers →
    ∃ l suf priority, k = l ++ '.' :: suf ∧
      (suf = stdoutSuffix ∧ priority = LOG_INFO ∨ suf = stderrSuffix ∧ priority = LOG_ERR) ∧
      c.call = { network := opts.SyslogNetwork, raddr := opts.SyslogAddress,
                 priority := priority ||| LOG_DAEMON, tag := l } ∧
      w.dialed[c.addr]? = some c.call

/-- The naming convention of the specification: a name of the shape `<label>.stdout` or
`<label>.stderr`. -/
def IsLogName (name : GoString) : Prop :=
  ('.' :: stdoutSuffix) <:+ name ∨ ('.' :: stderrSuffix) <:+ name

instance IsLogName.decidable (name : GoString) : Decidable (IsLogName name) :=
  inferInstanceAs (Decidable (_ ∨ _))

end OpenrcSyslogFs

/-! ## Splitting and joining -/

namespace OpenrcSyslogFs

namespace Strings

theorem Split_cons_eq (c : Char) (cs : GoString) (sep : Char) :
    Split (c :: cs) sep =
      if c = sep then [] :: Split cs sep
      else (c :: (Split cs sep).headD []) :: (Split cs sep).tail := rfl

theorem Split_exists_cons (s : GoString) (sep : Char) :
    ∃ p ps, Split s sep = p :: ps := by
  cases s with
  | nil => exact ⟨[], [], rfl⟩
  | cons c cs =>
    rw [Split_cons_eq]
    split_ifs
    · exact ⟨_, _, rfl⟩
    · exact ⟨_, _, rfl⟩

theorem Split_of_not_mem {s : GoString} {sep : Char} (h : sep ∉ s) :
    Split s sep = [s] := by
  induction s with
  | nil => rfl
  | cons c cs ih =>
    have hc : ¬ c = sep := fun e => h (by simp [e])
    have hcs : sep ∉ cs := fun e => h (List.mem_cons_of_mem _ e)
    rw [Split_cons_eq, if_neg hc, ih hcs]
    rfl

theorem Split_append_sep (l : GoString) {suf : GoString} {sep : Char} (h : sep ∉ suf) :
    Split (l ++ sep :: suf) sep = Split l sep ++ [suf] := by
  induction l with
  | nil =>
    show Split (sep :: suf) sep = Split [] sep ++ [suf]
    rw [Split_cons_eq, if_pos rfl, Split_of_not_mem h]
    rfl
  | cons c cs ih =>
    show Split (c :: (cs ++ sep :: suf)) sep = Split (c :: cs) sep ++ [suf]
    rw [Split_cons_eq, Split_cons_eq, ih]
    obtain ⟨p, ps, hp⟩ := Split_exists_cons cs sep
    rw [hp]
    split_ifs <;> simp

theorem Join_cons_cons (c : Char) (p : GoString) (ps : List GoString) (sep : GoString) :
    Join ((c :: p) :: ps) sep = c :: Join (p :: ps) sep := by
  cases ps with
  | nil => rfl
  | cons q r => rfl

theorem Join_Split (s : GoString) (sep : Char) : Join (Split s sep) [sep] = s := by
  induction s with
  | nil => rfl
  | cons c cs ih =>
    rw [Split_cons_eq]
    obtain ⟨p, ps, hp⟩ := Split_exists_cons cs sep
    rw [hp] at ih ⊢
    split_ifs with hc
    · subst hc
      show [] ++ [c] ++ Join (p :: ps) [c] = c :: cs
      rw [ih]
      rfl
    · show Join ((c :: p) :: ps) [sep] = c :: cs
      rw [Join_cons_cons, ih]

theorem exists_last_sep {s : GoString} {sep : Char} (h : sep ∈ s) :
    ∃ l suf, s = l ++ sep :: suf ∧ sep ∉ suf := by
  induction s with
  | nil => simp at h
  | cons c cs ih =>
    by_cases hcs : sep ∈ cs
    · obtain ⟨l, suf, hl, hs⟩ := ih hcs
      exact ⟨c :: l, suf, by rw [hl]; rfl, hs⟩
    · have hc : sep = c := by
        rcases List.mem_cons.1 h with e | e
        · exact e
        · exact absurd e hcs
      exact ⟨[], cs, by rw [hc]; rfl, hcs⟩

theorem parts_append_sep (l : GoString) {suf : GoString} {sep : Char} (h : sep ∉ suf) :
    ¬ (Split (l ++ sep :: suf) sep).length ≤ 1 ∧
    (Split (l ++ sep :: suf) sep).getD ((Split (l ++ sep :: suf) sep).length - 1) [] = suf ∧
    Join ((Split (l ++ sep :: suf) sep).take ((Split (l ++ sep :: suf) sep).length - 1))
      [sep] = l := by
  rw [Split_append_sep l h]
  obtain ⟨p, ps, hp⟩ := Split_exists_cons l sep
  refine ⟨?_, ?_, ?_⟩
  · rw [hp]; simp
  · simp [List.getD_eq_getElem?_getD]
  · simp [Join_Split]

theorem append_sep_inj {l l' suf suf' : GoString} {sep : Char}
    (h : l ++ sep :: suf = l' ++ sep :: suf') (hs : sep ∉ suf) (hs' : sep ∉ suf') :
    l = l' ∧ suf = suf' := by
  have e := congrArg (fun s => Split s sep) h
  simp only [Split_append_sep l hs, Split_append_sep l' hs'] at e
  have e1 := List.append_inj_left' e rfl
  have e2 := List.append_inj_right' e rfl
  refine ⟨?_, by simpa using e2⟩
  rw [← Join_Split l sep, ← Join_Split l' sep, e1]

end Strings

/-! ## How `Dir.Create` unfolds -/

theorem FileMode.IsDir_of_IsRegular {m : Nat} (h : FileMode.IsRegular m = true) :
    FileMode.IsDir m = false := by
  have h0 : m &&& ModeType = 0 := by simpa [FileMode.IsRegular] using h
  have hbit : m.testBit 31 = false := by
    have := congrArg (fun x => Nat.testBit x 31) h0
    have hT : ModeType.testBit 31 = true := by decide
    simpa [Nat.testBit_and, hT] using this
  have : m &&& ModeDir = 0 := by
    apply Nat.eq_of_testBit_eq
    intro i
    have hD : ModeDir = 2 ^ 31 := by decide
    rw [Nat.testBit_and, hD, Nat.testBit_two_pow, Nat.zero_testBit]
    by_cases hi : 31 = i
    · subst hi; simp [hbit]
    · simp [hi]
  simp [FileMode.IsDir, this]

theorem Dir.Create_regular (opts : Opts) (dial : Dialer) (req : CreateRequest)
    (resp : CreateResponse) (w : World) (hreg : FileMode.IsRegular req.Mode = true) :
    Dir.Create opts dial req resp w =
      if (Strings.Split req.Name '.').length ≤ 1 then
        { ret := .error (.new "No using specified"), resp := resp, world := w }
      else if (Strings.Split req.Name '.').getD ((Strings.Split req.Name '.').length - 1) []
          = stderrSuffix then
        Dir.createWith opts dial req resp w (Strings.Split req.Name '.') LOG_ERR
      else if (Strings.Split req.Name '.').getD ((Strings.Split req.Name '.').length - 1) []
          = stdoutSuffix then
        Dir.createWith opts dial req resp w (Strings.Split req.Name '.') LOG_INFO
      else
        { ret := .error (.new "Unsupported file extension"), resp := resp, world := w } := by
  unfold Dir.Create
  simp only [FileMode.IsDir_of_IsRegular hreg, hreg]
  rfl

theorem Dir.Create_not_regular (opts : Opts) (dial : Dialer) (req : CreateRequest)
    (resp : CreateResponse) (w : World) (hnr : FileMode.IsRegular req.Mode = false) :
    Dir.Create opts dial req resp w =
      { ret := .error (.errno (if FileMode.IsDir req.Mode then EISDIR else EINVAL)),
        resp := resp, world := w } := by
  unfold Dir.Create
  by_cases hd : FileMode.IsDir req.Mode = true
  · simp only [hd, if_true]
  · simp [hd, hnr]

theorem Dir.Create_no_dot (opts : Opts) (dial : Dialer) (req : CreateRequest)
    (resp : CreateResponse) (w : World) (hreg : FileMode.IsRegular req.Mode = true)
    (h : '.' ∉ req.Name) :
    Dir.Create opts dial req resp w =
      { ret := .error (.new "No using specified"), resp := resp, world := w } := by
  rw [Dir.Create_regular opts dial req resp w hreg, Strings.Split_of_not_mem h]
  rfl

theorem Dir.Create_suffix (opts : Opts) (dial : Dialer) (req : CreateRequest)
    (resp : CreateResponse) (w : World) (hreg : FileMode.IsRegular req.Mode = true)
    {l suf : GoString} (hn : req.Name = l ++ '.' :: suf) (hs : '.' ∉ suf) :
    Dir.Create opts dial req resp w =
      if suf = stderrSuffix then
        Dir.createWith opts dial req resp w (Strings.Split req.Name '.') LOG_ERR
      else if suf = stdoutSuffix then
        Dir.createWith opts dial req resp w (Strings.Split req.Name '.') LOG_INFO
      else
        { ret := .error (.new "Unsupported file extension"), resp := resp, world := w } := by
  obtain ⟨h1, h2, -⟩ := Strings.parts_append_sep l hs
  rw [Dir.Create_regular opts dial req resp w hreg, hn, if_neg h1, h2]

theorem Dir.createWith_hit (opts : Opts) (dial : Dialer) (req : CreateRequest)
    (resp : CreateResponse) (w : World) (parts : List GoString) (priority : Nat)
    {item : Writer} (h : w.loggers.get req.Name = some item) :
    Dir.createWith opts dial req resp w parts priority =
      { ret := .ok ({ file := item }, { sl := item }),
        resp := { Flags := resp.Flags ||| (OpenNonSeekable ||| OpenDirectIO) },
        world := w } := by
  unfold Dir.createWith
  simp only [h]

theorem Dir.createWith_fail (opts : Opts) (dial : Dialer) (req : CreateRequest)
    (resp : CreateResponse) (w : World) (parts : List GoString) (priority : Nat)
    {err : Error} (h : w.loggers.get req.Name = none)
    (hd : dial { network := opts.SyslogNetwork, raddr := opts.SyslogAddress,
                 priority := priority ||| LOG_DAEMON,
                 tag := Strings.Join (parts.take (parts.length - 1)) ['.'] } = some err) :
    Dir.createWith opts dial req resp w parts priority =
      { ret := .error err, resp := resp,
        world := { w with dialed := w.dialed ++
          [{ network := opts.SyslogNetwork, raddr := opts.SyslogAddress,
             priority := priority ||| LOG_DAEMON,
             tag := Strings.Join (parts.take (parts.length - 1)) ['.'] }] } } := by
  unfold Dir.createWith
  simp only [h, hd]

theorem Dir.createWith_ok (opts : Opts) (dial : Dialer) (req : CreateRequest)
    (resp : CreateResponse) (w : World) (parts : List GoString) (priority : Nat)
    (h : w.loggers.get req.Name = none)
    (hd : dial { network := opts.SyslogNetwork, raddr := opts.SyslogAddress,
                 priority := priority ||| LOG_DAEMON,
                 tag := Strings.Join (parts.take (parts.length - 1)) ['.'] } = none) :
    Dir.createWith opts dial req resp w parts priority =
      { ret := .ok
          ({ file := { addr := w.dialed.length,
                       call := { network := opts.SyslogNetwork, raddr := opts.SyslogAddress,
                                 priority := priority ||| LOG_DAEMON,
                                 tag := Strings.Join (parts.take (parts.length - 1)) ['.'] } } },
           { sl := { addr := w.dialed.length,
                     call := { network := opts.SyslogNetwork, raddr := opts.SyslogAddress,
                               priority := priority ||| LOG_DAEMON,
                               tag := Strings.Join (parts.take (parts.length - 1)) ['.'] } } }),
        resp := { Flags := resp.Flags ||| (OpenNonSeekable ||| OpenDirectIO) },
        world :=
          { w with
            loggers := w.loggers.set req.Name
              { addr := w.dialed.length,
                call := { network := opts.SyslogNetwork, raddr := opts.SyslogAddress,
                          priority := priority ||| LOG_DAEMON,
                          tag := Strings.Join (parts.take (parts.length - 1)) ['.'] } },
            dialed := w.dialed ++
              [{ network := opts.SyslogNetwork, raddr := opts.SyslogAddress,
                 priority := priority ||| LOG_DAEMON,
                 tag := Strings.Join (parts.take (parts.length - 1)) ['.'] }] } } := by
  unfold Dir.createWith
  simp only [h, hd]

/-! ## The map -/

namespace LoggerMap

theorem get_set_self (m : LoggerMap) (k : GoString) (v : Writer) :
    (m.set k v).get k = some v := by
  induction m with
  | nil => simp [set, get]
  | cons e rest ih =>
    obtain ⟨k', v'⟩ := e
    by_cases h : k' = k
    · simp [set, get, h]
    · simp [set, get, h, ih]

theorem get_set_ne (m : LoggerMap) {k k' : GoString} (v : Writer) (h : k' ≠ k) :
    (m.set k v).get k' = m.get k' := by
  induction m with
  | nil => simp [set, get, Ne.symm h]
  | cons e rest ih =>
    obtain ⟨k0, v0⟩ := e
    by_cases h0 : k0 = k
    · subst h0
      simp [set, get, Ne.symm h]
    · by_cases h1 : k0 = k'
      · subst h1
        simp [set, get, h]
      · simp [set, get, h0, h1, ih]

theorem get_eq_none_iff (m : LoggerMap) (k : GoString) : m.get k = none ↔ k ∉ m.keys := by
  induction m with
  | nil => simp [get, keys]
  | cons e rest ih =>
    obtain ⟨k0, v0⟩ := e
    have hk : keys ((k0, v0) :: rest) = k0 :: keys rest := rfl
    rw [hk, List.mem_cons, not_or]
    by_cases h0 : k0 = k
    · have hg : get ((k0, v0) :: rest) k = some v0 := by simp [get, h0]
      rw [hg]
      constructor
      · intro e; exact Option.noConfusion e
      · intro e; exact absurd h0.symm e.1
    · have hg : get ((k0, v0) :: rest) k = get rest k := by simp [get, h0]
      rw [hg, ih]
      constructor
      · intro e; exact ⟨fun e' => h0 e'.symm, e⟩
      · intro e; exact e.2

theorem set_of_get_none (m : LoggerMap) {k : GoString} (v : Writer) (h : m.get k = none) :
    m.set k v = m ++ [(k, v)] := by
  induction m with
  | nil => rfl
  | cons e rest ih =>
    obtain ⟨k0, v0⟩ := e
    by_cases h0 : k0 = k
    · simp [get, h0] at h
    · have hr : get rest k = none := by simpa [get, h0] using h
      simp [set, h0, ih hr]

theorem get_append_of_none (m m' : LoggerMap) {k : GoString} (h : m.get k = none) :
    (m ++ m').get k = m'.get k := by
  induction m with
  | nil => rfl
  | cons e rest ih =>
    obtain ⟨k0, v0⟩ := e
    by_cases h0 : k0 = k
    · simp [get, h0] at h
    · have hr : get rest k = none := by simpa [get, h0] using h
      show get ((k0, v0) :: (rest ++ m')) k = get m' k
      simp only [get, h0, if_false]
      exact ih hr

theorem mem_keys_of_get {m : LoggerMap} {k : GoString} {v : Writer} (h : m.get k = some v) :
    k ∈ m.keys := by
  by_contra hk
  rw [← get_eq_none_iff] at hk
  rw [hk] at h
  exact Option.noConfusion h

end LoggerMap

/-! ## Names of the two recognised shapes -/

theorem dot_not_mem_stdoutSuffix : '.' ∉ stdoutSuffix := by decide

theorem dot_not_mem_stderrSuffix : '.' ∉ stderrSuffix := by decide

theorem stdoutSuffix_ne_stderrSuffix : stdoutSuffix ≠ stderrSuffix := by decide

theorem Dir.Create_stdout (opts : Opts) (dial : Dialer) (req : CreateRequest)
    (resp : CreateResponse) (w : World) (hreg : FileMode.IsRegular req.Mode = true)
    {l : GoString} (hn : req.Name = l ++ '.' :: stdoutSuffix) :
    Dir.Create opts dial req resp w =
      Dir.createWith opts dial req resp w (Strings.Split req.Name '.') LOG_INFO ∧
    Strings.Join ((Strings.Split req.Name '.').take ((Strings.Split req.Name '.').length - 1))
      ['.'] = l := by
  refine ⟨?_, ?_⟩
  · rw [Dir.Create_suffix opts dial req resp w hreg hn dot_not_mem_stdoutSuffix,
      if_neg stdoutSuffix_ne_stderrSuffix, if_pos rfl]
  · rw [hn]
    exact (Strings.parts_append_sep l dot_not_mem_stdoutSuffix).2.2

theorem Dir.Create_stderr (opts : Opts) (dial : Dialer) (req : CreateRequest)
    (resp : CreateResponse) (w : World) (hreg : FileMode.IsRegular req.Mode = true)
    {l : GoString} (hn : req.Name = l ++ '.' :: stderrSuffix) :
    Dir.Create opts dial req resp w =
      Dir.createWith opts dial req resp w (Strings.Split req.Name '.') LOG_ERR ∧
    Strings.Join ((Strings.Split req.Name '.').take ((Strings.Split req.Name '.').length - 1))
      ['.'] = l := by
  refine ⟨?_, ?_⟩
  · rw [Dir.Create_suffix opts dial req resp w hreg hn dot_not_mem_stderrSuffix, if_pos rfl]
  · rw [hn]
    exact (Strings.parts_append_sep l dot_not_mem_stderrSuffix).2.2

/-- A create request for a name `l.suf` with `suf` one of the two suffixes and the name
not yet in the map dials once, with the priority of the suffix and the tag `l`; when the
dial succeeds the new connection is stored under the name and returned, and when it
fails the error is returned and the map stays as it was. -/
theorem Dir.Create_fresh (opts : Opts) (dial : Dialer) (req : CreateRequest)
    (resp : CreateResponse) (w : World) (hreg : FileMode.IsRegular req.Mode = true)
    {l suf : GoString} {priority : Nat} (hn : req.Name = l ++ '.' :: suf)
    (hsuf : suf = stdoutSuffix ∧ priority = LOG_INFO ∨ suf = stderrSuffix ∧ priority = LOG_ERR)
    (h : w.loggers.get req.Name = none) :
    (∀ err, dial { network := opts.SyslogNetwork, raddr := opts.SyslogAddress,
                   priority := priority ||| LOG_DAEMON, tag := l } = some err →
      Dir.Create opts dial req resp w =
        { ret := .error err, resp := resp,
          world := { w with dialed := w.dialed ++
            [{ network := opts.SyslogNetwork, raddr := opts.SyslogAddress,
               priority := priority ||| LOG_DAEMON, tag := l }] } }) ∧
    (dial { network := opts.SyslogNetwork, raddr := opts.SyslogAddress,
            priority := priority ||| LOG_DAEMON, tag := l } = none →
      Dir.Create opts dial req resp w =
        { ret := .ok
            ({ file := { addr := w.dialed.length,
                         call := { network := opts.SyslogNetwork,
                                   raddr := opts.SyslogAddress,
                                   priority := priority ||| LOG_DAEMON, tag := l } } },
             { sl := { addr := w.dialed.length,
                       call := { network := opts.SyslogNetwork,
                                 raddr := opts.SyslogAddress,
                                 priority := priority ||| LOG_DAEMON, tag := l } } }),
          resp := { Flags := resp.Flags ||| (OpenNonSeekable ||| OpenDirectIO) },
          world :=
            { w with
              loggers := w.loggers.set req.Name
                { addr := w.dialed.length,
                  call := { network := opts.SyslogNetwork, raddr := opts.SyslogAddress,
                            priority := priority ||| LOG_DAEMON, tag := l } },
              dialed := w.dialed ++
                [{ network := opts.SyslogNetwork, raddr := opts.SyslogAddress,
                   priority := priority ||| LOG_DAEMON, tag := l }] } }) := by
  rcases hsuf with ⟨hs, hp⟩ | ⟨hs, hp⟩
  · subst hs hp
    obtain ⟨e1, e2⟩ := Dir.Create_stdout opts dial req resp w hreg hn
    refine ⟨fun err hd => ?_, fun hd => ?_⟩
    · rw [e1, Dir.createWith_fail opts dial req resp w _ _ h (by rw [e2]; exact hd), e2]
    · rw [e1, Dir.createWith_ok opts dial req resp w _ _ h (by rw [e2]; exact hd), e2]
  · subst hs hp
    obtain ⟨e1, e2⟩ := Dir.Create_stderr opts dial req resp w hreg hn
    refine ⟨fun err hd => ?_, fun hd => ?_⟩
    · rw [e1, Dir.createWith_fail opts dial req resp w _ _ h (by rw [e2]; exact hd), e2]
    · rw [e1, Dir.createWith_ok opts dial req resp w _ _ h (by rw [e2]; exact hd), e2]

/-- A create request for a name of one of the two shapes that is already in the map
returns the stored connection and changes nothing but the response flags. -/
theorem Dir.Create_hit (opts : Opts) (dial : Dialer) (req : CreateRequest)
    (resp : CreateResponse) (w : World) (hreg : FileMode.IsRegular req.Mode = true)
    {l suf : GoString} (hn : req.Name = l ++ '.' :: suf)
    (hsuf : suf = stdoutSuffix ∨ suf = stderrSuffix)
    {item : Writer} (h : w.loggers.get req.Name = some item) :
    Dir.Create opts dial req resp w =
      { ret := .ok ({ file := item }, { sl := item }),
        resp := { Flags := resp.Flags ||| (OpenNonSeekable ||| OpenDirectIO) },
        world := w } := by
  rcases hsuf with hs | hs
  · subst hs
    rw [(Dir.Create_stdout opts dial req resp w hreg hn).1,
      Dir.createWith_hit opts dial req resp w _ _ h]
  · subst hs
    rw [(Dir.Create_stderr opts dial req resp w hreg hn).1,
      Dir.createWith_hit opts dial req resp w _ _ h]

theorem stdout_name_ne_stderr_name (l : GoString) :
    l ++ '.' :: stdoutSuffix ≠ l ++ '.' :: stderrSuffix := by
  intro e
  have := List.append_cancel_left e
  revert this
  decide

/-! ## Creating entries -/

/-- C1: from a map holding neither `l.stdout` nor `l.stderr`, with both dials succeeding,
creating `l.stdout` and then `l.stderr` as regular files appends two entries under the two
different names, bound to two different connections; the first was dialed with priority
`LOG_INFO|LOG_DAEMON`, the second with `LOG_ERR|LOG_DAEMON`, the priorities differ, and
both were dialed with the tag `l`. -/
theorem create_stdout_then_stderr (opts : Opts) (l : GoString) (w : World)
    (d1 d2 : Dialer) (m1 m2 : Nat) (r1 r2 : CreateResponse)
    (hd1 : ∀ c, d1 c = none) (hd2 : ∀ c, d2 c = none)
    (hm1 : FileMode.IsRegular m1 = true) (hm2 : FileMode.IsRegular m2 = true)
    (h1 : w.loggers.get (l ++ '.' :: stdoutSuffix) = none)
    (h2 : w.loggers.get (l ++ '.' :: stderrSuffix) = none) :
    ∃ c1 c2 : Writer,
      (Dir.Create opts d1 { Name := l ++ '.' :: stdoutSuffix, Mode := m1 } r1 w).ret
        = .ok ({ file := c1 }, { sl := c1 }) ∧
      (Dir.Create opts d2 { Name := l ++ '.' :: stderrSuffix, Mode := m2 } r2
        (Dir.Create opts d1 { Name := l ++ '.' :: stdoutSuffix, Mode := m1 } r1 w).world).ret
        = .ok ({ file := c2 }, { sl := c2 }) ∧
      (Dir.Create opts d2 { Name := l ++ '.' :: stderrSuffix, Mode := m2 } r2
        (Dir.Create opts d1 { Name := l ++ '.' :: stdoutSuffix, Mode := m1 } r1 w).world).world
        = { w with
            loggers := w.loggers ++
              [(l ++ '.' :: stdoutSuffix, c1), (l ++ '.' :: stderrSuffix, c2)],
            dialed := w.dialed ++ [c1.call, c2.call] } ∧
      (w.loggers ++ [(l ++ '.' :: stdoutSuffix, c1), (l ++ '.' :: stderrSuffix, c2)]).get
        (l ++ '.' :: stdoutSuffix) = some c1 ∧
      (w.loggers ++ [(l ++ '.' :: stdoutSuffix, c1), (l ++ '.' :: stderrSuffix, c2)]).get
        (l ++ '.' :: stderrSuffix) = some c2 ∧
      l ++ '.' :: stdoutSuffix ≠ l ++ '.' :: stderrSuffix ∧
      c1.addr ≠ c2.addr ∧
      c1.call.priority = LOG_INFO ||| LOG_DAEMON ∧
      c2.call.priority = LOG_ERR ||| LOG_DAEMON ∧
      c1.call.priority ≠ c2.call.priority ∧
      c1.call.tag = l ∧ c2.call.tag = l ∧
      c1.call.network = c2.call.network ∧ c1.call.raddr = c2.call.raddr := by
  have hne := stdout_name_ne_stderr_name l
  have e1 := (Dir.Create_fresh opts d1 { Name := l ++ '.' :: stdoutSuffix, Mode := m1 } r1 w
    hm1 rfl (Or.inl ⟨rfl, rfl⟩) h1).2 (hd1 _)
  rw [LoggerMap.set_of_get_none _ _ h1] at e1
  have h2' : (Dir.Create opts d1 { Name := l ++ '.' :: stdoutSuffix, Mode := m1 } r1
      w).world.loggers.get (l ++ '.' :: stderrSuffix) = none := by
    rw [e1]
    show (w.loggers ++ [(l ++ '.' :: stdoutSuffix, _)]).get (l ++ '.' :: stderrSuffix) = none
    rw [LoggerMap.get_append_of_none _ _ h2]
    simp [LoggerMap.get, hne]
  have e2 := (Dir.Create_fresh opts d2 { Name := l ++ '.' :: stderrSuffix, Mode := m2 } r2
    (Dir.Create opts d1 { Name := l ++ '.' :: stdoutSuffix, Mode := m1 } r1 w).world
    hm2 rfl (Or.inr ⟨rfl, rfl⟩) h2').2 (hd2 _)
  rw [LoggerMap.set_of_get_none _ _ h2'] at e2
  rw [e2, e1]
  refine ⟨_, _, rfl, rfl, ?_, ?_, ?_, hne, ?_, rfl, rfl, ?_, rfl, rfl, rfl, rfl⟩
  · simp
  · rw [LoggerMap.get_append_of_none _ _ h1]
    simp [LoggerMap.get]
  · rw [LoggerMap.get_append_of_none _ _ h2]
    simp [LoggerMap.get, hne]
  · simp
  · show LOG_INFO ||| LOG_DAEMON ≠ LOG_ERR ||| LOG_DAEMON
    decide

theorem create_stdout_then_stderr_witness :
    (FileMode.IsRegular 0o644 = true ∧
      World.init.loggers.get (['a', 'p', 'p'] ++ '.' :: stdoutSuffix) = none ∧
      World.init.loggers.get (['a', 'p', 'p'] ++ '.' :: stderrSuffix) = none) ∧
    ∃ c1 c2 : Writer,
      (Dir.Create ⟨[], [], 0o200⟩ dialOk ⟨['a', 'p', 'p'] ++ '.' :: stderrSuffix, 0o644⟩ ⟨0⟩
        (Dir.Create ⟨[], [], 0o200⟩ dialOk ⟨['a', 'p', 'p'] ++ '.' :: stdoutSuffix, 0o644⟩ ⟨0⟩
          World.init).world).world.loggers
        = [(['a', 'p', 'p'] ++ '.' :: stdoutSuffix, c1),
           (['a', 'p', 'p'] ++ '.' :: stderrSuffix, c2)] ∧
      c1.call.priority = 30 ∧ c2.call.priority = 27 ∧
      c1.call.tag = ['a', 'p', 'p'] ∧ c2.call.tag = ['a', 'p', 'p'] := by
  refine ⟨⟨by decide, by decide, by decide⟩, ?_⟩
  obtain ⟨c1, c2, -, -, hw, -, -, -, -, p1, p2, -, t1, t2, -, -⟩ :=
    create_stdout_then_stderr ⟨[], [], 0o200⟩ ['a', 'p', 'p'] World.init dialOk dialOk
      0o644 0o644 ⟨0⟩ ⟨0⟩ (fun _ => rfl) (fun _ => rfl) (by decide) (by decide)
      (by decide) (by decide)
  exact ⟨c1, c2, by rw [hw]; rfl, p1, p2, t1, t2⟩

/-- The dial log after a regular-file create request for `l.suf`: as before, or longer by
one call whose tag is `l`. -/
theorem Dir.Create_dialed (opts : Opts) (dial : Dialer) (req : CreateRequest)
    (resp : CreateResponse) (w : World) (hreg : FileMode.IsRegular req.Mode = true)
    {l suf : GoString} (hn : req.Name = l ++ '.' :: suf) (hs : '.' ∉ suf) :
    (Dir.Create opts dial req resp w).world = w ∨
    ∃ priority, (Dir.Create opts dial req resp w).world.dialed = w.dialed ++
      [{ network := opts.SyslogNetwork, raddr := opts.SyslogAddress,
         priority := priority ||| LOG_DAEMON, tag := l }] := by
  by_cases hv : suf = stdoutSuffix ∨ suf = stderrSuffix
  · cases hg : w.loggers.get req.Name with
    | some item =>
      left
      rw [Dir.Create_hit opts dial req resp w hreg hn hv hg]
    | none =>
      right
      have hp : ∃ priority, suf = stdoutSuffix ∧ priority = LOG_INFO ∨
          suf = stderrSuffix ∧ priority = LOG_ERR := by
        rcases hv with h | h
        · exact ⟨LOG_INFO, Or.inl ⟨h, rfl⟩⟩
        · exact ⟨LOG_ERR, Or.inr ⟨h, rfl⟩⟩
      obtain ⟨priority, hp⟩ := hp
      obtain ⟨f1, f2⟩ := Dir.Create_fresh opts dial req resp w hreg hn hp hg
      refine ⟨priority, ?_⟩
      cases hd : dial { network := opts.SyslogNetwork, raddr := opts.SyslogAddress,
                        priority := priority ||| LOG_DAEMON, tag := l } with
      | some err => rw [f1 err hd]
      | none => rw [f2 hd]
  · left
    rw [Dir.Create_suffix opts dial req resp w hreg hn hs,
      if_neg (fun h => hv (Or.inr h)), if_neg (fun h => hv (Or.inl h))]

/-- C2: for a regular-file create request whose name contains a `.`, the label computed
by `Dir.Create` (split on `.`, drop the last piece, join with `.`) followed by `.` and the
last piece is the name, the last piece holds no `.`, and this is the only such way to cut
the name; whenever the call dials, the tag it dials with is that label; and when the name
is `l.stdout` or `l.stderr` the label is `l` and the request is accepted: for a name not
yet in the map it dials with tag `l`, and with a succeeding dial it returns a node and a
handle on one connection, for a name not yet in the map the one just dialed with tag `l`
and now stored under the name. -/
theorem create_label_is_name_before_last_dot (opts : Opts) (dial : Dialer)
    (req : CreateRequest) (resp : CreateResponse) (w : World)
    (hreg : FileMode.IsRegular req.Mode = true) (hdot : '.' ∈ req.Name) :
    (Strings.Join ((Strings.Split req.Name '.').take ((Strings.Split req.Name '.').length - 1))
        ['.']
      ++ '.' :: (Strings.Split req.Name '.').getD ((Strings.Split req.Name '.').length - 1) []
      = req.Name) ∧
    '.' ∉ (Strings.Split req.Name '.').getD ((Strings.Split req.Name '.').length - 1) [] ∧
    (∀ l suf, req.Name = l ++ '.' :: suf → '.' ∉ suf →
      Strings.Join ((Strings.Split req.Name '.').take
        ((Strings.Split req.Name '.').length - 1)) ['.'] = l ∧
      (Strings.Split req.Name '.').getD ((Strings.Split req.Name '.').length - 1) [] = suf) ∧
    (∀ call, (Dir.Create opts dial req resp w).world.dialed = w.dialed ++ [call] →
      call.tag = Strings.Join ((Strings.Split req.Name '.').take
        ((Strings.Split req.Name '.').length - 1)) ['.']) ∧
    (∀ l, req.Name = l ++ '.' :: stdoutSuffix ∨ req.Name = l ++ '.' :: stderrSuffix →
      Strings.Join ((Strings.Split req.Name '.').take
        ((Strings.Split req.Name '.').length - 1)) ['.'] = l ∧
      (w.loggers.get req.Name = none →
        ∃ priority, (Dir.Create opts dial req resp w).world.dialed = w.dialed ++
          [{ network := opts.SyslogNetwork, raddr := opts.SyslogAddress,
             priority := priority ||| LOG_DAEMON, tag := l }]) ∧
      ((∀ c, dial c = none) →
        ∃ c : Writer, (Dir.Create opts dial req resp w).ret = .ok ({ file := c }, { sl := c }) ∧
          (w.loggers.get req.Name = none →
            c.call.tag = l ∧
            (Dir.Create opts dial req resp w).world.dialed = w.dialed ++ [c.call] ∧
            (Dir.Create opts dial req resp w).world.loggers.get req.Name = some c))) := by
  obtain ⟨l0, suf0, hn0, hs0⟩ := Strings.exists_last_sep hdot
  have key : ∀ l suf, req.Name = l ++ '.' :: suf → '.' ∉ suf →
      Strings.Join ((Strings.Split req.Name '.').take
        ((Strings.Split req.Name '.').length - 1)) ['.'] = l ∧
      (Strings.Split req.Name '.').getD ((Strings.Split req.Name '.').length - 1) [] = suf := by
    intro l suf hn hs
    obtain ⟨-, h2, h3⟩ := Strings.parts_append_sep l hs
    rw [hn]
    exact ⟨h3, h2⟩
  obtain ⟨k1, k2⟩ := key l0 suf0 hn0 hs0
  refine ⟨?_, ?_, key, ?_, ?_⟩
  · rw [k1, k2, ← hn0]
  · rw [k2]; exact hs0
  · intro call hcall
    rw [k1]
    rcases Dir.Create_dialed opts dial req resp w hreg hn0 hs0 with h | ⟨priority, h⟩
    · rw [h] at hcall
      have := congrArg List.length hcall
      simp at this
    · rw [h] at hcall
      have := List.append_cancel_left hcall
      simp only [List.cons.injEq, and_true] at this
      rw [← this]
  · intro l hl
    have hsuf : ∃ suf priority, req.Name = l ++ '.' :: suf ∧
        (suf = stdoutSuffix ∧ priority = LOG_INFO ∨ suf = stderrSuffix ∧ priority = LOG_ERR) := by
      rcases hl with h | h
      · exact ⟨_, LOG_INFO, h, Or.inl ⟨rfl, rfl⟩⟩
      · exact ⟨_, LOG_ERR, h, Or.inr ⟨rfl, rfl⟩⟩
    obtain ⟨suf, priority, hn, hp⟩ := hsuf
    have hv : suf = stdoutSuffix ∨ suf = stderrSuffix := by
      rcases hp with h | h
      · exact Or.inl h.1
      · exact Or.inr h.1
    have hs : '.' ∉ suf := by
      rcases hv with h | h
      · rw [h]; exact dot_not_mem_stdoutSuffix
      · rw [h]; exact dot_not_mem_stderrSuffix
    refine ⟨(key l suf hn hs).1, ?_⟩
    cases hg : w.loggers.get req.Name with
    | some item =>
      rw [Dir.Create_hit opts dial req resp w hreg hn hv hg]
      exact ⟨fun h => Option.noConfusion h,
        fun _ => ⟨item, rfl, fun h => Option.noConfusion h⟩⟩
    | none =>
      obtain ⟨f1, f2⟩ := Dir.Create_fresh opts dial req resp w hreg hn hp hg
      cases hd : dial { network := opts.SyslogNetwork, raddr := opts.SyslogAddress,
                        priority := priority ||| LOG_DAEMON, tag := l } with
      | some err =>
        rw [f1 err hd]
        refine ⟨fun _ => ⟨priority, rfl⟩, fun hall => ?_⟩
        rw [hall] at hd
        exact Option.noConfusion hd
      | none =>
        rw [f2 hd]
        refine ⟨fun _ => ⟨priority, rfl⟩, fun _ => ⟨_, rfl, fun _ => ⟨rfl, rfl, ?_⟩⟩⟩
        exact LoggerMap.get_set_self _ _ _

theorem create_label_is_name_before_last_dot_witness :
    (FileMode.IsRegular 0o644 = true ∧ '.' ∈ ['a', '.', 'b'] ++ '.' :: stdoutSuffix) ∧
    Strings.Join ((Strings.Split (['a', '.', 'b'] ++ '.' :: stdoutSuffix) '.').take
      ((Strings.Split (['a', '.', 'b'] ++ '.' :: stdoutSuffix) '.').length - 1)) ['.']
      = ['a', '.', 'b'] :=
  ⟨⟨by decide, by decide⟩,
    ((create_label_is_name_before_last_dot ⟨[], [], 0o200⟩ dialOk
      ⟨['a', '.', 'b'] ++ '.' :: stdoutSuffix, 0o644⟩ ⟨0⟩ World.init
      (by decide) (by decide)).2.2.2.2 ['a', '.', 'b'] (Or.inl rfl)).1⟩

/-- C3: a regular-file create request whose name holds no `.` fails with the error
`"No using specified"`, makes no dial, and leaves the map, the whole state and the
response as they were. -/
theorem create_without_dot_is_rejected (opts : Opts) (dial : Dialer) (req : CreateRequest)
    (resp : CreateResponse) (w : World) (hreg : FileMode.IsRegular req.Mode = true)
    (h : '.' ∉ req.Name) :
    (Dir.Create opts dial req resp w).ret = .error (.new "No using specified") ∧
    (Dir.Create opts dial req resp w).world.dialed = w.dialed ∧
    (Dir.Create opts dial req resp w).world.loggers = w.loggers ∧
    (Dir.Create opts dial req resp w).world = w ∧
    (Dir.Create opts dial req resp w).resp = resp := by
  rw [Dir.Create_no_dot opts dial req resp w hreg h]
  exact ⟨rfl, rfl, rfl, rfl, rfl⟩

theorem create_without_dot_is_rejected_witness :
    (FileMode.IsRegular 0o644 = true ∧ '.' ∉ stdoutSuffix ∧ '.' ∉ ([] : GoString)) ∧
    (Dir.Create ⟨[], [], 0o200⟩ dialOk ⟨stdoutSuffix, 0o644⟩ ⟨0⟩ World.init).ret
      = .error (.new "No using specified") ∧
    (Dir.Create ⟨[], [], 0o200⟩ dialOk ⟨[], 0o644⟩ ⟨0⟩ World.init).world = World.init :=
  ⟨⟨by decide, by decide, by decide⟩,
    (create_without_dot_is_rejected ⟨[], [], 0o200⟩ dialOk ⟨stdoutSuffix, 0o644⟩ ⟨0⟩
      World.init (by decide) (by decide)).1,
    (create_without_dot_is_rejected ⟨[], [], 0o200⟩ dialOk ⟨[], 0o644⟩ ⟨0⟩
      World.init (by decide) (by decide)).2.2.2.1⟩

/-- C4: a regular-file create request whose name is `l.suf`, with `suf` the piece after
the last `.` and `suf` neither `stdout` nor `stderr`, fails with the error
`"Unsupported file extension"`, makes no dial, and leaves the map, the whole state and
the response as they were. -/
theorem create_with_other_suffix_is_rejected (opts : Opts) (dial : Dialer)
    (req : CreateRequest) (resp : CreateResponse) (w : World)
    (hreg : FileMode.IsRegular req.Mode = true) (l suf : GoString)
    (hn : req.Name = l ++ '.' :: suf) (hs : '.' ∉ suf)
    (hout : suf ≠ stdoutSuffix) (herr : suf ≠ stderrSuffix) :
    (Dir.Create opts dial req resp w).ret = .error (.new "Unsupported file extension") ∧
    (Dir.Create opts dial req resp w).world.dialed = w.dialed ∧
    (Dir.Create opts dial req resp w).world.loggers = w.loggers ∧
    (Dir.Create opts dial req resp w).world = w ∧
    (Dir.Create opts dial req resp w).resp = resp := by
  rw [Dir.Create_suffix opts dial req resp w hreg hn hs, if_neg herr, if_neg hout]
  exact ⟨rfl, rfl, rfl, rfl, rfl⟩

theorem create_with_other_suffix_is_rejected_witness :
    (FileMode.IsRegular 0o644 = true ∧ '.' ∉ ['t', 'x', 't'] ∧
      ['t', 'x', 't'] ≠ stdoutSuffix ∧ ['t', 'x', 't'] ≠ stderrSuffix) ∧
    (Dir.Create ⟨[], [], 0o200⟩ dialOk ⟨['a', '.', 't', 'x', 't'], 0o644⟩ ⟨0⟩ World.init).ret
      = .error (.new "Unsupported file extension") ∧
    (Dir.Create ⟨[], [], 0o200⟩ dialOk ⟨['a', '.', 'S', 'T', 'D', 'O', 'U', 'T'], 0o644⟩ ⟨0⟩
      World.init).ret = .error (.new "Unsupported file extension") ∧
    (Dir.Create ⟨[], [], 0o200⟩ dialOk ⟨['a'] ++ '.' :: stdoutSuffix ++ ['.'], 0o644⟩ ⟨0⟩
      World.init).ret = .error (.new "Unsupported file extension") :=
  ⟨⟨by decide, by decide, by decide, by decide⟩,
    (create_with_other_suffix_is_rejected ⟨[], [], 0o200⟩ dialOk
      ⟨['a', '.', 't', 'x', 't'], 0o644⟩ ⟨0⟩ World.init (by decide) ['a'] ['t', 'x', 't']
      rfl (by decide) (by decide) (by decide)).1,
    (create_with_other_suffix_is_rejected ⟨[], [], 0o200⟩ dialOk
      ⟨['a', '.', 'S', 'T', 'D', 'O', 'U', 'T'], 0o644⟩ ⟨0⟩ World.init (by decide) ['a']
      ['S', 'T', 'D', 'O', 'U', 'T'] rfl (by decide) (by decide) (by decide)).1,
    (create_with_other_suffix_is_rejected ⟨[], [], 0o200⟩ dialOk
      ⟨['a'] ++ '.' :: stdoutSuffix ++ ['.'], 0o644⟩ ⟨0⟩ World.init (by decide)
      (['a'] ++ '.' :: stdoutSuffix) [] rfl (by decide) (by decide) (by decide)).1⟩

/-- C5, as the code has it: when a create request for a name `l.stdout` or `l.stderr`
succeeds and a regular-file create request for the same name follows, the second one
succeeds whatever a dial would answer, returns the same node and handle, both on the
connection the first call returned and the map holds under the name, and leaves the whole
state (map and dial log) as the first call left it; the two calls together dial at most
once: exactly once when the name was not in the map before the first call, and not at
all when it was. -/
theorem create_twice_reuses_connection (opts : Opts) (d1 d2 : Dialer)
    (req1 req2 : CreateRequest) (r1 r2 : CreateResponse) (w : World)
    (hreg2 : FileMode.IsRegular req2.Mode = true)
    (hsame : req2.Name = req1.Name) (l suf : GoString)
    (hn : req1.Name = l ++ '.' :: suf) (hv : suf = stdoutSuffix ∨ suf = stderrSuffix)
    (f : File) (fh : FileHandle)
    (hok : (Dir.Create opts d1 req1 r1 w).ret = .ok (f, fh)) :
    (Dir.Create opts d2 req2 r2 (Dir.Create opts d1 req1 r1 w).world).ret = .ok (f, fh) ∧
    fh.sl = f.file ∧
    (Dir.Create opts d1 req1 r1 w).world.loggers.get req1.Name = some f.file ∧
    (Dir.Create opts d2 req2 r2 (Dir.Create opts d1 req1 r1 w).world).world
      = (Dir.Create opts d1 req1 r1 w).world ∧
    (Dir.Create opts d2 req2 r2 (Dir.Create opts d1 req1 r1 w).world).world.dialed.length
      ≤ w.dialed.length + 1 ∧
    (w.loggers.get req1.Name = none →
      (Dir.Create opts d2 req2 r2 (Dir.Create opts d1 req1 r1 w).world).world.dialed.length
        = w.dialed.length + 1) ∧
    ((∃ item, w.loggers.get req1.Name = some item) →
      (Dir.Create opts d2 req2 r2 (Dir.Create opts d1 req1 r1 w).world).world.dialed
        = w.dialed) := by
  have hreg1 : FileMode.IsRegular req1.Mode = true := by
    cases hr : FileMode.IsRegular req1.Mode with
    | true => rfl
    | false =>
      rw [Dir.Create_not_regular opts d1 req1 r1 w hr] at hok
      exact Except.noConfusion hok
  have hn2 : req2.Name = l ++ '.' :: suf := hsame.trans hn
  have step2 : ∀ w1 : World, ∀ c : Writer, w1.loggers.get req1.Name = some c →
      Dir.Create opts d2 req2 r2 w1 =
        { ret := .ok ({ file := c }, { sl := c }),
          resp := { Flags := r2.Flags ||| (OpenNonSeekable ||| OpenDirectIO) },
          world := w1 } := fun w1 c hc =>
    Dir.Create_hit opts d2 req2 r2 w1 hreg2 hn2 hv (by rw [hsame]; exact hc)
  cases hg : w.loggers.get req1.Name with
  | some item =>
    have e1 := Dir.Create_hit opts d1 req1 r1 w hreg1 hn hv hg
    rw [e1] at hok ⊢
    simp only [Except.ok.injEq, Prod.mk.injEq] at hok
    obtain ⟨hf, hh⟩ := hok
    subst hf hh
    rw [step2 w item hg]
    exact ⟨rfl, rfl, hg, rfl, Nat.le_succ _, fun h => Option.noConfusion h, fun _ => rfl⟩
  | none =>
    have hp : ∃ priority, suf = stdoutSuffix ∧ priority = LOG_INFO ∨
        suf = stderrSuffix ∧ priority = LOG_ERR := by
      rcases hv with h | h
      · exact ⟨LOG_INFO, Or.inl ⟨h, rfl⟩⟩
      · exact ⟨LOG_ERR, Or.inr ⟨h, rfl⟩⟩
    obtain ⟨priority, hp⟩ := hp
    obtain ⟨f1, f2⟩ := Dir.Create_fresh opts d1 req1 r1 w hreg1 hn hp hg
    cases hd : d1 { network := opts.SyslogNetwork, raddr := opts.SyslogAddress,
                    priority := priority ||| LOG_DAEMON, tag := l } with
    | some err =>
      rw [f1 err hd] at hok
      exact Except.noConfusion hok
    | none =>
      have e1 := f2 hd
      rw [e1] at hok ⊢
      simp only [Except.ok.injEq, Prod.mk.injEq] at hok
      obtain ⟨hf, hh⟩ := hok
      subst hf hh
      have hget := LoggerMap.get_set_self w.loggers req1.Name
        { addr := w.dialed.length,
          call := { network := opts.SyslogNetwork, raddr := opts.SyslogAddress,
                    priority := priority ||| LOG_DAEMON, tag := l } }
      rw [step2 _ _ hget]
      refine ⟨rfl, rfl, hget, rfl, ?_, fun _ => ?_, fun hex => ?_⟩
      · simp
      · simp
      · obtain ⟨item, hi⟩ := hex
        exact Option.noConfusion hi

theorem create_twice_reuses_connection_witness :
    (FileMode.IsRegular 0o644 = true ∧
      (Dir.Create ⟨[], [], 0o200⟩ dialOk ⟨['a'] ++ '.' :: stdoutSuffix, 0o644⟩ ⟨0⟩
        World.init).ret
        = .ok (⟨⟨0, ⟨[], [], 30, ['a']⟩⟩⟩, ⟨⟨0, ⟨[], [], 30, ['a']⟩⟩⟩)) ∧
    (Dir.Create ⟨[], [], 0o200⟩ (dialFail (.transport 111))
      ⟨['a'] ++ '.' :: stdoutSuffix, 0o644⟩ ⟨0⟩
      (Dir.Create ⟨[], [], 0o200⟩ dialOk ⟨['a'] ++ '.' :: stdoutSuffix, 0o644⟩ ⟨0⟩
        World.init).world).ret
      = .ok (⟨⟨0, ⟨[], [], 30, ['a']⟩⟩⟩, ⟨⟨0, ⟨[], [], 30, ['a']⟩⟩⟩) ∧
    (Dir.Create ⟨[], [], 0o200⟩ (dialFail (.transport 111))
      ⟨['a'] ++ '.' :: stdoutSuffix, 0o644⟩ ⟨0⟩
      (Dir.Create ⟨[], [], 0o200⟩ dialOk ⟨['a'] ++ '.' :: stdoutSuffix, 0o644⟩ ⟨0⟩
        World.init).world).world.dialed.length = 1 :=
  have h := create_twice_reuses_connection ⟨[], [], 0o200⟩ dialOk (dialFail (.transport 111))
    ⟨['a'] ++ '.' :: stdoutSuffix, 0o644⟩ ⟨['a'] ++ '.' :: stdoutSuffix, 0o644⟩ ⟨0⟩ ⟨0⟩
    World.init (by decide) rfl ['a'] stdoutSuffix rfl (Or.inl rfl)
    ⟨⟨0, ⟨[], [], 30, ['a']⟩⟩⟩ ⟨⟨0, ⟨[], [], 30, ['a']⟩⟩⟩ rfl
  ⟨⟨by decide, rfl⟩, h.1, h.2.2.2.2.2.1 rfl⟩

/-- C5, as the claim has it, fails: with `a.stdout` already in the map two create
requests for it both succeed and the dial log does not grow, so the two calls together
make no dial rather than one; and after a first create of `a.stdout` a second create
request for the same name with a directory mode does not succeed but answers `EISDIR`. -/
theorem create_twice_without_dial_or_with_directory_mode :
    (Dir.Create ⟨[], [], 0o200⟩ dialOk ⟨['a'] ++ '.' :: stdoutSuffix, 0o644⟩ ⟨0⟩
      ⟨[(['a'] ++ '.' :: stdoutSuffix, ⟨0, ⟨[], [], 30, ['a']⟩⟩)], [⟨[], [], 30, ['a']⟩],
        []⟩).ret
      = .ok (⟨⟨0, ⟨[], [], 30, ['a']⟩⟩⟩, ⟨⟨0, ⟨[], [], 30, ['a']⟩⟩⟩) ∧
    (Dir.Create ⟨[], [], 0o200⟩ dialOk ⟨['a'] ++ '.' :: stdoutSuffix, 0o644⟩ ⟨0⟩
      (Dir.Create ⟨[], [], 0o200⟩ dialOk ⟨['a'] ++ '.' :: stdoutSuffix, 0o644⟩ ⟨0⟩
        ⟨[(['a'] ++ '.' :: stdoutSuffix, ⟨0, ⟨[], [], 30, ['a']⟩⟩)], [⟨[], [], 30, ['a']⟩],
          []⟩).world).ret
      = .ok (⟨⟨0, ⟨[], [], 30, ['a']⟩⟩⟩, ⟨⟨0, ⟨[], [], 30, ['a']⟩⟩⟩) ∧
    (Dir.Create ⟨[], [], 0o200⟩ dialOk ⟨['a'] ++ '.' :: stdoutSuffix, 0o644⟩ ⟨0⟩
      (Dir.Create ⟨[], [], 0o200⟩ dialOk ⟨['a'] ++ '.' :: stdoutSuffix, 0o644⟩ ⟨0⟩
        ⟨[(['a'] ++ '.' :: stdoutSuffix, ⟨0, ⟨[], [], 30, ['a']⟩⟩)], [⟨[], [], 30, ['a']⟩],
          []⟩).world).world.dialed = [⟨[], [], 30, ['a']⟩] ∧
    (Dir.Create ⟨[], [], 0o200⟩ dialOk ⟨['a'] ++ '.' :: stdoutSuffix, 0o644⟩ ⟨0⟩
      World.init).ret
      = .ok (⟨⟨0, ⟨[], [], 30, ['a']⟩⟩⟩, ⟨⟨0, ⟨[], [], 30, ['a']⟩⟩⟩) ∧
    (Dir.Create ⟨[], [], 0o200⟩ dialOk ⟨['a'] ++ '.' :: stdoutSuffix, ModeDir ||| 0o755⟩ ⟨0⟩
      (Dir.Create ⟨[], [], 0o200⟩ dialOk ⟨['a'] ++ '.' :: stdoutSuffix, 0o644⟩ ⟨0⟩
        World.init).world).ret = .error (.errno EISDIR) :=
  ⟨rfl, rfl, rfl, rfl, rfl⟩

/-! ## Opening and writing -/

/-- C6: an open request for reading and writing that also carries `O_APPEND`, and an open
request for reading only that also carries `O_NONBLOCK`, are not rejected by `File.Open`:
each returns a handle on the connection of the node and sets the response flags, although
the access mode of the first is read-write and that of the second is read-only and neither
is write-only. -/
theorem open_for_reading_with_extra_flag_succeeds :
    OpenFlags.IsReadWrite (OpenReadWrite ||| OpenAppend) = true ∧
    OpenFlags.IsWriteOnly (OpenReadWrite ||| OpenAppend) = false ∧
    (File.Open ⟨⟨0, ⟨[], [], 30, ['a']⟩⟩⟩ ⟨false, OpenReadWrite ||| OpenAppend⟩ ⟨0⟩).ret
      = .ok ⟨⟨0, ⟨[], [], 30, ['a']⟩⟩⟩ ∧
    (File.Open ⟨⟨0, ⟨[], [], 30, ['a']⟩⟩⟩ ⟨false, OpenReadWrite ||| OpenAppend⟩ ⟨0⟩).resp
      = ⟨OpenNonSeekable ||| OpenDirectIO⟩ ∧
    OpenFlags.IsReadOnly (OpenReadOnly ||| OpenNonblock) = true ∧
    OpenFlags.IsWriteOnly (OpenReadOnly ||| OpenNonblock) = false ∧
    (File.Open ⟨⟨0, ⟨[], [], 30, ['a']⟩⟩⟩ ⟨false, OpenReadOnly ||| OpenNonblock⟩ ⟨0⟩).ret
      = .ok ⟨⟨0, ⟨[], [], 30, ['a']⟩⟩⟩ :=
  ⟨by decide, by decide, rfl, rfl, by decide, by decide, rfl⟩

/-- C7: `FileHandle.Write` makes one call of `Write` on the connection of the handle, with
the whole payload as it is, sets the response size to the length of the payload and
returns no error, whatever that call on the connection returns; the map and the dial log
stay as they were. -/
theorem write_forwards_whole_payload (fh : FileHandle) (req : WriteRequest)
    (resp : WriteResponse) (slResult : Nat × Option Error) (w : World) :
    (FileHandle.Write fh req resp slResult w).world.sent = w.sent ++ [(fh.sl, req.Data)] ∧
    (FileHandle.Write fh req resp slResult w).resp.Size = req.Data.length ∧
    (FileHandle.Write fh req resp slResult w).err = none ∧
    (FileHandle.Write fh req resp slResult w).world.loggers = w.loggers ∧
    (FileHandle.Write fh req resp slResult w).world.dialed = w.dialed :=
  ⟨rfl, rfl, rfl, rfl, rfl⟩

/-! ## A failing dial -/

/-- C10: a regular-file create request for a name `l.stdout` or `l.stderr` that is not in
the map, when the dial fails with error `e`, returns `e` and neither node nor handle,
leaves the map and the response as they were, and the name is still not a key: a lookup
of it answers `ENOENT` and a listing does not show it. -/
theorem create_dial_failure_leaves_no_entry (opts : Opts) (dial : Dialer)
    (req : CreateRequest) (resp : CreateResponse) (w : World)
    (hreg : FileMode.IsRegular req.Mode = true) (l suf : GoString)
    (hn : req.Name = l ++ '.' :: suf) (hv : suf = stdoutSuffix ∨ suf = stderrSuffix)
    (hg : w.loggers.get req.Name = none) (e : Error) (hd : ∀ c, dial c = some e) :
    (Dir.Create opts dial req resp w).ret = .error e ∧
    (Dir.Create opts dial req resp w).world.loggers = w.loggers ∧
    (Dir.Create opts dial req resp w).resp = resp ∧
    Dir.Lookup ⟨req.Name⟩ (Dir.Create opts dial req resp w).world = .error (.errno ENOENT) ∧
    (⟨req.Name⟩ : Dirent) ∉ (Dir.ReadDirAll (Dir.Create opts dial req resp w).world).1 := by
  have hp : ∃ priority, suf = stdoutSuffix ∧ priority = LOG_INFO ∨
      suf = stderrSuffix ∧ priority = LOG_ERR := by
    rcases hv with h | h
    · exact ⟨LOG_INFO, Or.inl ⟨h, rfl⟩⟩
    · exact ⟨LOG_ERR, Or.inr ⟨h, rfl⟩⟩
  obtain ⟨priority, hp⟩ := hp
  rw [(Dir.Create_fresh opts dial req resp w hreg hn hp hg).1 e (hd _)]
  refine ⟨rfl, rfl, rfl, ?_, ?_⟩
  · unfold Dir.Lookup
    simp only [hg]
  · have hk := (LoggerMap.get_eq_none_iff w.loggers req.Name).1 hg
    intro hmem
    apply hk
    obtain ⟨k, hk1, hk2⟩ := List.mem_map.1 hmem
    have : k = req.Name := by simpa using hk2
    rw [← this]
    exact hk1

theorem create_dial_failure_leaves_no_entry_witness :
    (FileMode.IsRegular 0o644 = true ∧
      World.init.loggers.get (['a'] ++ '.' :: stderrSuffix) = none) ∧
    (Dir.Create ⟨[], [], 0o200⟩ (dialFail (.transport 111))
      ⟨['a'] ++ '.' :: stderrSuffix, 0o644⟩ ⟨0⟩ World.init).ret = .error (.transport 111) ∧
    Dir.Lookup ⟨['a'] ++ '.' :: stderrSuffix⟩
      (Dir.Create ⟨[], [], 0o200⟩ (dialFail (.transport 111))
        ⟨['a'] ++ '.' :: stderrSuffix, 0o644⟩ ⟨0⟩ World.init).world
      = .error (.errno ENOENT) :=
  have h := create_dial_failure_leaves_no_entry ⟨[], [], 0o200⟩ (dialFail (.transport 111))
    ⟨['a'] ++ '.' :: stderrSuffix, 0o644⟩ ⟨0⟩ World.init (by decide) ['a'] stderrSuffix rfl
    (Or.inr rfl) (by decide) (.transport 111) (fun _ => rfl)
  ⟨⟨by decide, by decide⟩, h.1, h.2.2.2.1⟩

/-! ## The map only grows -/

theorem Dir.createWith_world (opts : Opts) (dial : Dialer) (req : CreateRequest)
    (resp : CreateResponse) (w : World) (parts : List GoString) (priority : Nat) :
    (Dir.createWith opts dial req resp w parts priority).world.loggers = w.loggers ∨
    (w.loggers.get req.Name = none ∧
      ∃ c, (Dir.createWith opts dial req resp w parts priority).world.loggers
        = w.loggers.set req.Name c) := by
  unfold Dir.createWith
  cases hg : w.loggers.get req.Name with
  | some item => exact Or.inl rfl
  | none =>
    simp only
    split
    · exact Or.inl rfl
    · exact Or.inr ⟨trivial, _, rfl⟩

/-- Whatever the request, `Dir.Create` leaves the map as it was or assigns one key that
was not in it. -/
theorem Dir.Create_world (opts : Opts) (dial : Dialer) (req : CreateRequest)
    (resp : CreateResponse) (w : World) :
    (Dir.Create opts dial req resp w).world.loggers = w.loggers ∨
    (w.loggers.get req.Name = none ∧
      ∃ c, (Dir.Create opts dial req resp w).world.loggers = w.loggers.set req.Name c) := by
  unfold Dir.Create
  dsimp only
  split_ifs
  · exact Or.inl rfl
  · exact Or.inl rfl
  · exact Or.inl rfl
  · exact Dir.createWith_world opts dial req resp w _ _
  · exact Dir.createWith_world opts dial req resp w _ _
  · exact Or.inl rfl

theorem Dir.Create_keeps_entry (opts : Opts) (dial : Dialer) (req : CreateRequest)
    (resp : CreateResponse) (w : World) {name : GoString} {c : Writer}
    (h : w.loggers.get name = some c) :
    (Dir.Create opts dial req resp w).world.loggers.get name = some c := by
  rcases Dir.Create_world opts dial req resp w with e | ⟨hnone, c', e⟩
  · rw [e]; exact h
  · rw [e]
    have hne : name ≠ req.Name := by
      intro heq
      rw [heq, hnone] at h
      exact Option.noConfusion h
    rw [LoggerMap.get_set_ne _ _ hne]
    exact h

theorem Op.run_keeps_entry (opts : Opts) (op : Op) (w : World) {name : GoString}
    {c : Writer} (h : w.loggers.get name = some c) :
    (op.run opts w).loggers.get name = some c := by
  cases op with
  | create dial req resp => exact Dir.Create_keeps_entry opts dial req resp w h
  | write fh req resp slResult => exact h
  | dirAttr a => exact h
  | lookup req => exact h
  | readDirAll => exact h
  | fileAttr f uid gid now a => exact h
  | fileOpen f req resp => exact h
  | release fh => exact h

theorem runOps_keeps_entry (opts : Opts) (ops : List Op) (w : World) {name : GoString}
    {c : Writer} (h : w.loggers.get name = some c) :
    (runOps opts ops w).loggers.get name = some c := by
  induction ops generalizing w with
  | nil => exact h
  | cons op rest ih => exact ih (op.run opts w) (Op.run_keeps_entry opts op w h)

theorem Dir.Lookup_of_get {w : World} {name : GoString} {c : Writer}
    (h : w.loggers.get name = some c) : Dir.Lookup ⟨name⟩ w = .ok ⟨c⟩ := by
  unfold Dir.Lookup
  simp only [h]

theorem Dir.ReadDirAll_of_get {w : World} {name : GoString} {c : Writer}
    (h : w.loggers.get name = some c) : (⟨name⟩ : Dirent) ∈ (Dir.ReadDirAll w).1 :=
  List.mem_map.2 ⟨name, LoggerMap.mem_keys_of_get h, rfl⟩

/-- C9: an entry of the map, a name bound to a connection, is still in the map and bound
to the same connection after any one operation (directory or file attributes, lookup,
listing, create with any request and any dial outcome, open, write, release) and after any
sequence of operations; a lookup of the name then returns a node on that connection and a
listing shows the name, in particular after a release. -/
theorem registry_is_append_only (opts : Opts) (w : World) (name : GoString) (c : Writer)
    (h : w.loggers.get name = some c) :
    (∀ op : Op,
      (op.run opts w).loggers.get name = some c ∧
      Dir.Lookup ⟨name⟩ (op.run opts w) = .ok ⟨c⟩ ∧
      (⟨name⟩ : Dirent) ∈ (Dir.ReadDirAll (op.run opts w)).1) ∧
    (∀ ops : List Op,
      (runOps opts ops w).loggers.get name = some c ∧
      Dir.Lookup ⟨name⟩ (runOps opts ops w) = .ok ⟨c⟩ ∧
      (⟨name⟩ : Dirent) ∈ (Dir.ReadDirAll (runOps opts ops w)).1) ∧
    (∀ fh : FileHandle,
      FileHandle.Release fh = none ∧
      Dir.Lookup ⟨name⟩ ((Op.release fh).run opts w) = .ok ⟨c⟩ ∧
      (⟨name⟩ : Dirent) ∈ (Dir.ReadDirAll ((Op.release fh).run opts w)).1) := by
  refine ⟨fun op => ?_, fun ops => ?_, fun fh => ?_⟩
  · have := Op.run_keeps_entry opts op w h
    exact ⟨this, Dir.Lookup_of_get this, Dir.ReadDirAll_of_get this⟩
  · have := runOps_keeps_entry opts ops w h
    exact ⟨this, Dir.Lookup_of_get this, Dir.ReadDirAll_of_get this⟩
  · have := Op.run_keeps_entry opts (Op.release fh) w h
    exact ⟨rfl, Dir.Lookup_of_get this, Dir.ReadDirAll_of_get this⟩

theorem registry_is_append_only_witness :
    (LoggerMap.get [(['a'] ++ '.' :: stdoutSuffix, ⟨0, ⟨[], [], 30, ['a']⟩⟩)]
      (['a'] ++ '.' :: stdoutSuffix) = some ⟨0, ⟨[], [], 30, ['a']⟩⟩) ∧
    (runOps ⟨[], [], 0o200⟩
      [Op.create dialOk ⟨['b'] ++ '.' :: stderrSuffix, 0o644⟩ ⟨0⟩,
       Op.write ⟨⟨0, ⟨[], [], 30, ['a']⟩⟩⟩ ⟨[104, 105, 10]⟩ ⟨0⟩ (3, none),
       Op.release ⟨⟨0, ⟨[], [], 30, ['a']⟩⟩⟩,
       Op.create (dialFail (.transport 111)) ⟨['a'] ++ '.' :: stdoutSuffix, 0o644⟩ ⟨0⟩]
      ⟨[(['a'] ++ '.' :: stdoutSuffix, ⟨0, ⟨[], [], 30, ['a']⟩⟩)],
       [⟨[], [], 30, ['a']⟩], []⟩).loggers.get (['a'] ++ '.' :: stdoutSuffix)
      = some ⟨0, ⟨[], [], 30, ['a']⟩⟩ :=
  ⟨by decide,
    ((registry_is_append_only ⟨[], [], 0o200⟩
      ⟨[(['a'] ++ '.' :: stdoutSuffix, ⟨0, ⟨[], [], 30, ['a']⟩⟩)], [⟨[], [], 30, ['a']⟩], []⟩
      (['a'] ++ '.' :: stdoutSuffix) ⟨0, ⟨[], [], 30, ['a']⟩⟩ (by decide)).2.1 _).1⟩

/-! ## Listing after a sequence of creations -/

theorem IsLogName_iff (name : GoString) :
    IsLogName name ↔
      ∃ l suf, name = l ++ '.' :: suf ∧ (suf = stdoutSuffix ∨ suf = stderrSuffix) := by
  constructor
  · rintro (⟨l, h⟩ | ⟨l, h⟩)
    · exact ⟨l, _, h.symm, Or.inl rfl⟩
    · exact ⟨l, _, h.symm, Or.inr rfl⟩
  · rintro ⟨l, suf, hn, h | h⟩
    · subst h; exact Or.inl ⟨l, hn.symm⟩
    · subst h; exact Or.inr ⟨l, hn.symm⟩

theorem Dir.Create_of_not_IsLogName (opts : Opts) (dial : Dialer) (req : CreateRequest)
    (resp : CreateResponse) (w : World) (hreg : FileMode.IsRegular req.Mode = true)
    (h : ¬ IsLogName req.Name) :
    (Dir.Create opts dial req resp w).world = w ∧
    ((Dir.Create opts dial req resp w).ret = .error (.new "No using specified") ∨
     (Dir.Create opts dial req resp w).ret = .error (.new "Unsupported file extension")) := by
  by_cases hdot : '.' ∈ req.Name
  · obtain ⟨l, suf, hn, hs⟩ := Strings.exists_last_sep hdot
    have hout : suf ≠ stdoutSuffix :=
      fun e => h ((IsLogName_iff _).2 ⟨l, suf, hn, Or.inl e⟩)
    have herr : suf ≠ stderrSuffix :=
      fun e => h ((IsLogName_iff _).2 ⟨l, suf, hn, Or.inr e⟩)
    rw [Dir.Create_suffix opts dial req resp w hreg hn hs, if_neg herr, if_neg hout]
    exact ⟨rfl, Or.inr rfl⟩
  · rw [Dir.Create_no_dot opts dial req resp w hreg hdot]
    exact ⟨rfl, Or.inl rfl⟩

theorem Dir.Create_ok_of_IsLogName (opts : Opts) (req : CreateRequest)
    (resp : CreateResponse) (w : World) (hreg : FileMode.IsRegular req.Mode = true)
    (h : IsLogName req.Name) :
    ∃ c : Writer, (Dir.Create opts dialOk req resp w).ret = .ok ({ file := c }, { sl := c }) := by
  obtain ⟨l, suf, hn, hv⟩ := (IsLogName_iff _).1 h
  cases hg : w.loggers.get req.Name with
  | some item =>
    rw [Dir.Create_hit opts dialOk req resp w hreg hn hv hg]
    exact ⟨item, rfl⟩
  | none =>
    have hp : ∃ priority, suf = stdoutSuffix ∧ priority = LOG_INFO ∨
        suf = stderrSuffix ∧ priority = LOG_ERR := by
      rcases hv with h | h
      · exact ⟨LOG_INFO, Or.inl ⟨h, rfl⟩⟩
      · exact ⟨LOG_ERR, Or.inr ⟨h, rfl⟩⟩
    obtain ⟨priority, hp⟩ := hp
    rw [(Dir.Create_fresh opts dialOk req resp w hreg hn hp hg).2 rfl]
    exact ⟨_, rfl⟩

theorem LoggerMap.keys_append_single (m : LoggerMap) (k : GoString) (v : Writer) :
    LoggerMap.keys (m ++ [(k, v)]) = LoggerMap.keys m ++ [k] := by
  simp [LoggerMap.keys]

theorem Dir.Create_keys (opts : Opts) (req : CreateRequest) (resp : CreateResponse)
    (w : World) (hreg : FileMode.IsRegular req.Mode = true) :
    (Dir.Create opts dialOk req resp w).world.loggers.keys =
      if IsLogName req.Name ∧ req.Name ∉ w.loggers.keys then w.loggers.keys ++ [req.Name]
      else w.loggers.keys := by
  by_cases hV : IsLogName req.Name
  · obtain ⟨l, suf, hn, hv⟩ := (IsLogName_iff _).1 hV
    cases hg : w.loggers.get req.Name with
    | some item =>
      rw [Dir.Create_hit opts dialOk req resp w hreg hn hv hg,
        if_neg (fun h => h.2 (LoggerMap.mem_keys_of_get hg))]
    | none =>
      have hp : ∃ priority, suf = stdoutSuffix ∧ priority = LOG_INFO ∨
          suf = stderrSuffix ∧ priority = LOG_ERR := by
        rcases hv with h | h
        · exact ⟨LOG_INFO, Or.inl ⟨h, rfl⟩⟩
        · exact ⟨LOG_ERR, Or.inr ⟨h, rfl⟩⟩
      obtain ⟨priority, hp⟩ := hp
      rw [(Dir.Create_fresh opts dialOk req resp w hreg hn hp hg).2 rfl,
        if_pos ⟨hV, (LoggerMap.get_eq_none_iff _ _).1 hg⟩]
      show LoggerMap.keys (w.loggers.set req.Name _) = _
      rw [LoggerMap.set_of_get_none _ _ hg, LoggerMap.keys_append_single]
  · rw [(Dir.Create_of_not_IsLogName opts dialOk req resp w hreg hV).1,
      if_neg (fun h => hV h.1)]

theorem createAll_cons (opts : Opts) (dial : Dialer) (req : CreateRequest)
    (reqs : List CreateRequest) (w : World) :
    createAll opts dial (req :: reqs) w =
      createAll opts dial reqs (Dir.Create opts dial req { Flags := 0 } w).world := rfl

theorem createAll_keys (opts : Opts) (reqs : List CreateRequest) (w : World)
    (hreg : ∀ r ∈ reqs, FileMode.IsRegular r.Mode = true)
    (hnd : w.loggers.keys.Nodup) :
    (createAll opts dialOk reqs w).loggers.keys.Nodup ∧
    ∀ n, n ∈ (createAll opts dialOk reqs w).loggers.keys ↔
      n ∈ w.loggers.keys ∨ (n ∈ reqs.map CreateRequest.Name ∧ IsLogName n) := by
  induction reqs generalizing w with
  | nil => exact ⟨hnd, fun n => by simp [createAll]⟩
  | cons r rest ih =>
    have hr := hreg r (List.mem_cons_self _ _)
    have hk := Dir.Create_keys opts r { Flags := 0 } w hr
    have hnd1 : (Dir.Create opts dialOk r { Flags := 0 } w).world.loggers.keys.Nodup := by
      rw [hk]
      split_ifs with hc
      · refine List.Nodup.append hnd (List.nodup_singleton _) ?_
        intro a ha ha'
        rw [List.mem_singleton.1 ha'] at ha
        exact hc.2 ha
      · exact hnd
    obtain ⟨i1, i2⟩ := ih (Dir.Create opts dialOk r { Flags := 0 } w).world
      (fun x hx => hreg x (List.mem_cons_of_mem _ hx)) hnd1
    rw [createAll_cons]
    refine ⟨i1, fun n => ?_⟩
    rw [i2 n, hk]
    split_ifs with hc
    · simp only [List.mem_append, List.map_cons, List.mem_cons, List.not_mem_nil, or_false]
      constructor
      · rintro ((h | h) | h)
        · exact Or.inl h
        · exact Or.inr ⟨Or.inl h, h ▸ hc.1⟩
        · exact Or.inr ⟨Or.inr h.1, h.2⟩
      · rintro (h | ⟨h | h, hV⟩)
        · exact Or.inl (Or.inl h)
        · exact Or.inl (Or.inr h)
        · exact Or.inr ⟨h, hV⟩
    · simp only [List.map_cons, List.mem_cons]
      constructor
      · rintro (h | h)
        · exact Or.inl h
        · exact Or.inr ⟨Or.inr h.1, h.2⟩
      · rintro (h | ⟨h | h, hV⟩)
        · exact Or.inl h
        · left
          by_contra hn
          exact hc ⟨h ▸ hV, h ▸ hn⟩
        · exact Or.inr ⟨h, hV⟩

/-- C8: after any sequence of regular-file create requests applied to the empty map with
every dial succeeding, every list `Dir.ReadDirAll` may return (one entry per key, in any
order) has names without duplicates that are exactly the requested names of the shape
`<label>.stdout` or `<label>.stderr`; it is a permutation of the distinct such names, its
length is their number, a request is of that shape exactly when its creation succeeds
with a succeeding dial, and no name whose creation failed validation is listed. -/
theorem listing_after_creates (opts : Opts) (reqs : List CreateRequest)
    (hreg : ∀ r ∈ reqs, FileMode.IsRegular r.Mode = true) (res : List Dirent)
    (hres : IsReadDirAll (createAll opts dialOk reqs World.init) res) :
    (res.map Dirent.Name).Nodup ∧
    (∀ n, n ∈ res.map Dirent.Name ↔ n ∈ reqs.map CreateRequest.Name ∧ IsLogName n) ∧
    (res.map Dirent.Name).Perm
      (((reqs.map CreateRequest.Name).filter fun n => decide (IsLogName n)).dedup) ∧
    res.length
      = (((reqs.map CreateRequest.Name).filter fun n => decide (IsLogName n)).dedup).length ∧
    (∀ r ∈ reqs, IsLogName r.Name ↔
      ∀ resp w, ∃ c : Writer,
        (Dir.Create opts dialOk r resp w).ret = .ok ({ file := c }, { sl := c })) ∧
    (∀ r ∈ reqs, ∀ resp w,
      ((Dir.Create opts dialOk r resp w).ret = .error (.new "No using specified") ∨
       (Dir.Create opts dialOk r resp w).ret = .error (.new "Unsupported file extension")) →
      r.Name ∉ res.map Dirent.Name) := by
  obtain ⟨k1, k2⟩ := createAll_keys opts reqs World.init hreg List.nodup_nil
  have hperm : (res.map Dirent.Name).Perm (createAll opts dialOk reqs World.init).loggers.keys := by
    have h1 := List.Perm.map Dirent.Name hres
    have h2 : List.map Dirent.Name (Dir.ReadDirAll (createAll opts dialOk reqs World.init)).1
        = (createAll opts dialOk reqs World.init).loggers.keys := by
      simp [Dir.ReadDirAll, Function.comp_def]
    rw [h2] at h1
    exact h1
  have hnd : (res.map Dirent.Name).Nodup := hperm.nodup_iff.2 k1
  have hmem : ∀ n, n ∈ res.map Dirent.Name ↔
      n ∈ reqs.map CreateRequest.Name ∧ IsLogName n := by
    intro n
    rw [hperm.mem_iff, k2 n]
    simp [World.init, LoggerMap.keys]
  have hperm2 : (res.map Dirent.Name).Perm
      (((reqs.map CreateRequest.Name).filter fun n => decide (IsLogName n)).dedup) := by
    rw [List.perm_ext_iff_of_nodup hnd (List.nodup_dedup _)]
    intro n
    rw [hmem n, List.mem_dedup, List.mem_filter]
    simp
  have hshape : ∀ r ∈ reqs, IsLogName r.Name ↔
      ∀ resp w, ∃ c : Writer,
        (Dir.Create opts dialOk r resp w).ret = .ok ({ file := c }, { sl := c }) := by
    intro r hr
    constructor
    · intro hV resp w
      exact Dir.Create_ok_of_IsLogName opts r resp w (hreg r hr) hV
    · intro hall
      by_contra hV
      obtain ⟨c, hc⟩ := hall { Flags := 0 } World.init
      rcases (Dir.Create_of_not_IsLogName opts dialOk r { Flags := 0 } World.init
        (hreg r hr) hV).2 with e | e
      · rw [e] at hc; exact Except.noConfusion hc
      · rw [e] at hc; exact Except.noConfusion hc
  refine ⟨hnd, hmem, hperm2, ?_, hshape, ?_⟩
  · have := hperm2.length_eq
    simpa using this
  · intro r hr resp w herr hin
    have hV := ((hmem r.Name).1 hin).2
    obtain ⟨c, hc⟩ := Dir.Create_ok_of_IsLogName opts r resp w (hreg r hr) hV
    rcases herr with e | e
    · rw [e] at hc; exact Except.noConfusion hc
    · rw [e] at hc; exact Except.noConfusion hc

theorem listing_after_creates_witness :
    (∀ r ∈ [(⟨['a'] ++ '.' :: stdoutSuffix, 0o644⟩ : CreateRequest), ⟨['b', 'a', 'd'], 0o644⟩,
        ⟨['a'] ++ '.' :: stderrSuffix, 0o644⟩, ⟨['a'] ++ '.' :: stdoutSuffix, 0o644⟩,
        ⟨['x', '.', 't', 'x', 't'], 0o644⟩], FileMode.IsRegular r.Mode = true) ∧
    (Dir.ReadDirAll (createAll ⟨[], [], 0o200⟩ dialOk
      [⟨['a'] ++ '.' :: stdoutSuffix, 0o644⟩, ⟨['b', 'a', 'd'], 0o644⟩,
        ⟨['a'] ++ '.' :: stderrSuffix, 0o644⟩, ⟨['a'] ++ '.' :: stdoutSuffix, 0o644⟩,
        ⟨['x', '.', 't', 'x', 't'], 0o644⟩] World.init)).1
      = [⟨['a'] ++ '.' :: stdoutSuffix⟩, ⟨['a'] ++ '.' :: stderrSuffix⟩] ∧
    (Dir.ReadDirAll (createAll ⟨[], [], 0o200⟩ dialOk
      [⟨['a'] ++ '.' :: stdoutSuffix, 0o644⟩, ⟨['b', 'a', 'd'], 0o644⟩,
        ⟨['a'] ++ '.' :: stderrSuffix, 0o644⟩, ⟨['a'] ++ '.' :: stdoutSuffix, 0o644⟩,
        ⟨['x', '.', 't', 'x', 't'], 0o644⟩] World.init)).1.length
      = (([(⟨['a'] ++ '.' :: stdoutSuffix, 0o644⟩ : CreateRequest), ⟨['b', 'a', 'd'], 0o644⟩,
        ⟨['a'] ++ '.' :: stderrSuffix, 0o644⟩, ⟨['a'] ++ '.' :: stdoutSuffix, 0o644⟩,
        ⟨['x', '.', 't', 'x', 't'], 0o644⟩].map CreateRequest.Name).filter
          fun n => decide (IsLogName n)).dedup.length :=
  ⟨by decide, by decide,
    (listing_after_creates ⟨[], [], 0o200⟩
      [⟨['a'] ++ '.' :: stdoutSuffix, 0o644⟩, ⟨['b', 'a', 'd'], 0o644⟩,
        ⟨['a'] ++ '.' :: stderrSuffix, 0o644⟩, ⟨['a'] ++ '.' :: stdoutSuffix, 0o644⟩,
        ⟨['x', '.', 't', 'x', 't'], 0o644⟩] (by decide) _ (List.Perm.refl _)).2.2.2.1⟩

/-! ## Lookup -/

/-- C11: `Dir.Lookup` of a name returns a node on connection `c` exactly when the map
binds the name to `c`, returns some node exactly when the name is a key of the map, and
answers `ENOENT` exactly when it is not; these are the only two outcomes, and the
operation leaves the whole state, map and dial log, as it was. -/
theorem lookup_finds_exactly_the_keys (opts : Opts) (w : World) (name : GoString) :
    (∀ c, Dir.Lookup ⟨name⟩ w = .ok ⟨c⟩ ↔ w.loggers.get name = some c) ∧
    ((∃ f, Dir.Lookup ⟨name⟩ w = .ok f) ↔ name ∈ w.loggers.keys) ∧
    (Dir.Lookup ⟨name⟩ w = .error (.errno ENOENT) ↔ name ∉ w.loggers.keys) ∧
    ((∃ f, Dir.Lookup ⟨name⟩ w = .ok f) ∨ Dir.Lookup ⟨name⟩ w = .error (.errno ENOENT)) ∧
    (Op.lookup ⟨name⟩).run opts w = w ∧
    ((Op.lookup ⟨name⟩).run opts w).loggers = w.loggers ∧
    ((Op.lookup ⟨name⟩).run opts w).dialed = w.dialed := by
  have hk := LoggerMap.get_eq_none_iff w.loggers name
  unfold Dir.Lookup
  cases hg : w.loggers.get name with
  | none =>
    rw [hg] at hk
    have hnot : name ∉ w.loggers.keys := hk.1 rfl
    refine ⟨fun c => ?_, ?_, ?_, Or.inr rfl, rfl, rfl, rfl⟩
    · constructor
      · intro h; exact Except.noConfusion h
      · intro h; exact Option.noConfusion h
    · constructor
      · rintro ⟨f, h⟩; exact Except.noConfusion h
      · intro h; exact absurd h hnot
    · exact ⟨fun _ => hnot, fun _ => rfl⟩
  | some item =>
    have hin : name ∈ w.loggers.keys := LoggerMap.mem_keys_of_get hg
    refine ⟨fun c => ?_, ?_, ?_, Or.inl ⟨_, rfl⟩, rfl, rfl, rfl⟩
    · constructor
      · intro h
        simp only [Except.ok.injEq, File.mk.injEq] at h
        rw [h]
      · intro h
        simp only [Option.some.injEq] at h
        rw [h]
    · exact ⟨fun _ => hin, fun _ => ⟨_, rfl⟩⟩
    · constructor
      · intro h; exact Except.noConfusion h
      · intro h; exact absurd hin h

/-! ## Requests for something that is not a regular file -/

/-- C12: a create request whose mode is not that of a regular file fails whatever its
name, whatever the map holds and whatever a dial would answer: with `EISDIR` when the
mode is a directory and with `EINVAL` for every other non-regular mode; it makes no dial
and leaves the map, the whole state and the response as they were. -/
theorem create_of_non_regular_is_rejected (opts : Opts) (dial : Dialer)
    (req : CreateRequest) (resp : CreateResponse) (w : World)
    (hnr : FileMode.IsRegular req.Mode = false) :
    (Dir.Create opts dial req resp w).ret
      = .error (.errno (if FileMode.IsDir req.Mode then EISDIR else EINVAL)) ∧
    (Dir.Create opts dial req resp w).world.dialed = w.dialed ∧
    (Dir.Create opts dial req resp w).world.loggers = w.loggers ∧
    (Dir.Create opts dial req resp w).world = w ∧
    (Dir.Create opts dial req resp w).resp = resp := by
  rw [Dir.Create_not_regular opts dial req resp w hnr]
  exact ⟨rfl, rfl, rfl, rfl, rfl⟩

theorem create_of_non_regular_is_rejected_witness :
    (FileMode.IsRegular (ModeDir ||| 0o755) = false ∧
      FileMode.IsRegular (1 <<< 27 ||| 0o777) = false) ∧
    (Dir.Create ⟨[], [], 0o200⟩ dialOk ⟨['a'] ++ '.' :: stdoutSuffix, ModeDir ||| 0o755⟩ ⟨0⟩
      ⟨[(['a'] ++ '.' :: stdoutSuffix, ⟨0, ⟨[], [], 30, ['a']⟩⟩)], [⟨[], [], 30, ['a']⟩],
        []⟩).ret = .error (.errno EISDIR) ∧
    (Dir.Create ⟨[], [], 0o200⟩ dialOk ⟨['a'] ++ '.' :: stdoutSuffix, 1 <<< 27 ||| 0o777⟩ ⟨0⟩
      World.init).ret = .error (.errno EINVAL) ∧
    (Dir.Create ⟨[], [], 0o200⟩ dialOk ⟨['a'] ++ '.' :: stdoutSuffix, 1 <<< 27 ||| 0o777⟩ ⟨0⟩
      World.init).world = World.init :=
  ⟨⟨by decide, by decide⟩,
    (create_of_non_regular_is_rejected ⟨[], [], 0o200⟩ dialOk
      ⟨['a'] ++ '.' :: stdoutSuffix, ModeDir ||| 0o755⟩ ⟨0⟩
      ⟨[(['a'] ++ '.' :: stdoutSuffix, ⟨0, ⟨[], [], 30, ['a']⟩⟩)], [⟨[], [], 30, ['a']⟩],
        []⟩ (by decide)).1,
    (create_of_non_regular_is_rejected ⟨[], [], 0o200⟩ dialOk
      ⟨['a'] ++ '.' :: stdoutSuffix, 1 <<< 27 ||| 0o777⟩ ⟨0⟩ World.init (by decide)).1,
    (create_of_non_regular_is_rejected ⟨[], [], 0o200⟩ dialOk
      ⟨['a'] ++ '.' :: stdoutSuffix, 1 <<< 27 ||| 0o777⟩ ⟨0⟩ World.init (by decide)).2.2.2.1⟩

/-! ## The response flags -/

theorem Dir.createWith_resp (opts : Opts) (dial : Dialer) (req : CreateRequest)
    (resp : CreateResponse) (w : World) (parts : List GoString) (priority : Nat) :
    (∃ r, (Dir.createWith opts dial req resp w parts priority).ret = .ok r ∧
      (Dir.createWith opts dial req resp w parts priority).resp
        = { Flags := resp.Flags ||| (OpenNonSeekable ||| OpenDirectIO) }) ∨
    (∃ e, (Dir.createWith opts dial req resp w parts priority).ret = .error e ∧
      (Dir.createWith opts dial req resp w parts priority).resp = resp) := by
  unfold Dir.createWith
  cases hg : w.loggers.get req.Name with
  | some item => exact Or.inl ⟨_, rfl, rfl⟩
  | none =>
    simp only
    split
    · exact Or.inr ⟨_, rfl, rfl⟩
    · exact Or.inl ⟨_, rfl, rfl⟩

theorem Dir.Create_resp (opts : Opts) (dial : Dialer) (req : CreateRequest)
    (resp : CreateResponse) (w : World) :
    (∃ r, (Dir.Create opts dial req resp w).ret = .ok r ∧
      (Dir.Create opts dial req resp w).resp
        = { Flags := resp.Flags ||| (OpenNonSeekable ||| OpenDirectIO) }) ∨
    (∃ e, (Dir.Create opts dial req resp w).ret = .error e ∧
      (Dir.Create opts dial req resp w).resp = resp) := by
  unfold Dir.Create
  dsimp only
  split_ifs
  · exact Or.inr ⟨_, rfl, rfl⟩
  · exact Or.inr ⟨_, rfl, rfl⟩
  · exact Or.inr ⟨_, rfl, rfl⟩
  · exact Dir.createWith_resp opts dial req resp w _ _
  · exact Dir.createWith_resp opts dial req resp w _ _
  · exact Or.inr ⟨_, rfl, rfl⟩

theorem File.Open_resp (f : File) (req : OpenRequest) (resp : OpenResponse) :
    (∃ h, (File.Open f req resp).ret = .ok h ∧
      (File.Open f req resp).resp
        = { Flags := resp.Flags ||| (OpenNonSeekable ||| OpenDirectIO) }) ∨
    (∃ e, (File.Open f req resp).ret = .error e ∧ (File.Open f req resp).resp = resp) := by
  unfold File.Open
  split_ifs
  · exact Or.inr ⟨_, rfl, rfl⟩
  · exact Or.inr ⟨_, rfl, rfl⟩
  · exact Or.inl ⟨_, rfl, rfl⟩

theorem testBit_or_open_flags (x i : Nat) :
    (x ||| (OpenNonSeekable ||| OpenDirectIO)).testBit i
      = (x.testBit i || decide (i = 0) || decide (i = 2)) := by
  have h5 : OpenNonSeekable ||| OpenDirectIO = 2 ^ 2 ||| 2 ^ 0 := by decide
  rw [Nat.testBit_lor, h5, Nat.testBit_lor, Nat.testBit_two_pow, Nat.testBit_two_pow]
  by_cases h0 : i = 0
  · subst h0; simp
  · by_cases h2 : i = 2
    · subst h2; simp
    · have h0' : ¬ 0 = i := fun e => h0 e.symm
      have h2' : ¬ 2 = i := fun e => h2 e.symm
      simp [h0, h2, h0', h2']

theorem File.Open_accepted (f : File) (req : OpenRequest) (resp : OpenResponse)
    (hd : req.Dir = false) (hro : req.Flags ≠ OpenReadOnly) (hrw : req.Flags ≠ OpenReadWrite) :
    File.Open f req resp =
      { ret := .ok { sl := f.file },
        resp := { Flags := resp.Flags ||| (OpenNonSeekable ||| OpenDirectIO) } } := by
  unfold File.Open
  simp [hd, hro, hrw]

theorem File.Open_rejected (f : File) (req : OpenRequest) (resp : OpenResponse)
    (h : req.Dir = true ∨ req.Flags = OpenReadOnly ∨ req.Flags = OpenReadWrite) :
    File.Open f req resp =
      { ret := .error (.new (if req.Dir then "Dir request" else "Read request")),
        resp := resp } := by
  unfold File.Open
  by_cases hd : req.Dir = true
  · simp [hd]
  · have hf : req.Flags = OpenReadOnly ∨ req.Flags = OpenReadWrite := by
      rcases h with h | h
      · exact absurd h hd
      · exact h
    simp [hd, hf]

theorem Dir.Create_accepted (opts : Opts) (dial : Dialer) (req : CreateRequest)
    (resp : CreateResponse) (w : World) (hreg : FileMode.IsRegular req.Mode = true)
    (hV : IsLogName req.Name)
    (hd : (∃ item, w.loggers.get req.Name = some item) ∨ ∀ c, dial c = none) :
    ∃ c : Writer,
      (Dir.Create opts dial req resp w).ret = .ok ({ file := c }, { sl := c }) ∧
      (Dir.Create opts dial req resp w).resp
        = { Flags := resp.Flags ||| (OpenNonSeekable ||| OpenDirectIO) } := by
  obtain ⟨l, suf, hn, hv⟩ := (IsLogName_iff _).1 hV
  cases hg : w.loggers.get req.Name with
  | some item =>
    rw [Dir.Create_hit opts dial req resp w hreg hn hv hg]
    exact ⟨item, rfl, rfl⟩
  | none =>
    have hall : ∀ c, dial c = none := by
      rcases hd with ⟨item, hi⟩ | h
      · rw [hg] at hi; exact Option.noConfusion hi
      · exact h
    have hp : ∃ priority, suf = stdoutSuffix ∧ priority = LOG_INFO ∨
        suf = stderrSuffix ∧ priority = LOG_ERR := by
      rcases hv with h | h
      · exact ⟨LOG_INFO, Or.inl ⟨h, rfl⟩⟩
      · exact ⟨LOG_ERR, Or.inr ⟨h, rfl⟩⟩
    obtain ⟨priority, hp⟩ := hp
    rw [(Dir.Create_fresh opts dial req resp w hreg hn hp hg).2 (hall _)]
    exact ⟨_, rfl, rfl⟩

/-- C16: whatever the request, the state and the dial outcome, when `Dir.Create` returns
a node and a handle the response flags are the flags on entry with `OpenNonSeekable` and
`OpenDirectIO` or-ed in, and when it returns an error the response is as on entry; the
same holds for `File.Open`; or-ing the two flags in sets bit 0 and bit 2 and leaves every
other bit as it was. Both operations do succeed and set the flags: `File.Open` for every
request that is not for a directory and whose flags are neither `OpenReadOnly` nor
`OpenReadWrite` (so for `OpenWriteOnly`), returning a handle on the connection of the
node, and `Dir.Create` for every regular-file request for a name `l.stdout` or `l.stderr`
that is in the map or whose dial succeeds; a directory, read-only or read-write open
returns its error with the response as on entry. -/
theorem response_flags_after_create_and_open (opts : Opts) (dial : Dialer)
    (req : CreateRequest) (resp : CreateResponse) (w : World)
    (f : File) (oreq : OpenRequest) (oresp : OpenResponse) :
    (∀ r, (Dir.Create opts dial req resp w).ret = .ok r →
      (Dir.Create opts dial req resp w).resp.Flags
        = resp.Flags ||| (OpenNonSeekable ||| OpenDirectIO)) ∧
    (∀ e, (Dir.Create opts dial req resp w).ret = .error e →
      (Dir.Create opts dial req resp w).resp = resp) ∧
    (∀ h, (File.Open f oreq oresp).ret = .ok h →
      (File.Open f oreq oresp).resp.Flags
        = oresp.Flags ||| (OpenNonSeekable ||| OpenDirectIO)) ∧
    (∀ e, (File.Open f oreq oresp).ret = .error e → (File.Open f oreq oresp).resp = oresp) ∧
    (∀ x i : Nat, (x ||| (OpenNonSeekable ||| OpenDirectIO)).testBit i
      = (x.testBit i || decide (i = 0) || decide (i = 2))) ∧
    (oreq.Dir = false → oreq.Flags ≠ OpenReadOnly → oreq.Flags ≠ OpenReadWrite →
      (File.Open f oreq oresp).ret = .ok { sl := f.file } ∧
      (File.Open f oreq oresp).resp.Flags
        = oresp.Flags ||| (OpenNonSeekable ||| OpenDirectIO)) ∧
    ((File.Open f { Dir := false, Flags := OpenWriteOnly } oresp).ret = .ok { sl := f.file } ∧
      (File.Open f { Dir := false, Flags := OpenWriteOnly } oresp).resp.Flags
        = oresp.Flags ||| (OpenNonSeekable ||| OpenDirectIO)) ∧
    (oreq.Dir = true ∨ oreq.Flags = OpenReadOnly ∨ oreq.Flags = OpenReadWrite →
      (File.Open f oreq oresp).ret
        = .error (.new (if oreq.Dir then "Dir request" else "Read request")) ∧
      (File.Open f oreq oresp).resp = oresp) ∧
    (FileMode.IsRegular req.Mode = true → IsLogName req.Name →
      ((∃ item, w.loggers.get req.Name = some item) ∨ ∀ c, dial c = none) →
      ∃ c : Writer,
        (Dir.Create opts dial req resp w).ret = .ok ({ file := c }, { sl := c }) ∧
        (Dir.Create opts dial req resp w).resp.Flags
          = resp.Flags ||| (OpenNonSeekable ||| OpenDirectIO)) := by
  refine ⟨fun r hr => ?_, fun e he => ?_, fun h hh => ?_, fun e he => ?_,
    testBit_or_open_flags, fun hd hro hrw => ?_, ?_, fun hrej => ?_, fun hreg hV hd => ?_⟩
  · rcases Dir.Create_resp opts dial req resp w with ⟨r', h1, h2⟩ | ⟨e', h1, -⟩
    · rw [h2]
    · rw [h1] at hr; exact Except.noConfusion hr
  · rcases Dir.Create_resp opts dial req resp w with ⟨r', h1, -⟩ | ⟨e', -, h2⟩
    · rw [h1] at he; exact Except.noConfusion he
    · exact h2
  · rcases File.Open_resp f oreq oresp with ⟨r', h1, h2⟩ | ⟨e', h1, -⟩
    · rw [h2]
    · rw [h1] at hh; exact Except.noConfusion hh
  · rcases File.Open_resp f oreq oresp with ⟨r', h1, -⟩ | ⟨e', -, h2⟩
    · rw [h1] at he; exact Except.noConfusion he
    · exact h2
  · rw [File.Open_accepted f oreq oresp hd hro hrw]
    exact ⟨rfl, rfl⟩
  · rw [File.Open_accepted f { Dir := false, Flags := OpenWriteOnly } oresp rfl
      (by decide) (by decide)]
    exact ⟨rfl, rfl⟩
  · rw [File.Open_rejected f oreq oresp hrej]
    exact ⟨rfl, rfl⟩
  · obtain ⟨c, h1, h2⟩ := Dir.Create_accepted opts dial req resp w hreg hV hd
    exact ⟨c, h1, by rw [h2]⟩

theorem response_flags_after_create_and_open_witness :
    ((Dir.Create ⟨[], [], 0o200⟩ dialOk ⟨['a'] ++ '.' :: stdoutSuffix, 0o644⟩ ⟨2⟩
        World.init).ret = .ok (⟨⟨0, ⟨[], [], 30, ['a']⟩⟩⟩, ⟨⟨0, ⟨[], [], 30, ['a']⟩⟩⟩) ∧
      (File.Open ⟨⟨0, ⟨[], [], 30, ['a']⟩⟩⟩ ⟨false, OpenReadOnly⟩ ⟨2⟩).ret
        = .error (.new "Read request") ∧
      (⟨false, OpenWriteOnly ||| OpenAppend⟩ : OpenRequest).Dir = false ∧
      OpenWriteOnly ||| OpenAppend ≠ OpenReadOnly ∧
      OpenWriteOnly ||| OpenAppend ≠ OpenReadWrite ∧
      FileMode.IsRegular 0o644 = true ∧ IsLogName (['a'] ++ '.' :: stdoutSuffix)) ∧
    (Dir.Create ⟨[], [], 0o200⟩ dialOk ⟨['a'] ++ '.' :: stdoutSuffix, 0o644⟩ ⟨2⟩
      World.init).resp.Flags = 7 ∧
    (File.Open ⟨⟨0, ⟨[], [], 30, ['a']⟩⟩⟩ ⟨false, OpenReadOnly⟩ ⟨2⟩).resp = ⟨2⟩ ∧
    ((File.Open ⟨⟨0, ⟨[], [], 30, ['a']⟩⟩⟩ ⟨false, OpenWriteOnly ||| OpenAppend⟩ ⟨2⟩).ret
        = .ok ⟨⟨0, ⟨[], [], 30, ['a']⟩⟩⟩ ∧
      (File.Open ⟨⟨0, ⟨[], [], 30, ['a']⟩⟩⟩ ⟨false, OpenWriteOnly ||| OpenAppend⟩ ⟨2⟩).resp.Flags
        = 7) ∧
    ((File.Open ⟨⟨0, ⟨[], [], 30, ['a']⟩⟩⟩ ⟨false, OpenWriteOnly⟩ ⟨2⟩).ret
        = .ok ⟨⟨0, ⟨[], [], 30, ['a']⟩⟩⟩ ∧
      (File.Open ⟨⟨0, ⟨[], [], 30, ['a']⟩⟩⟩ ⟨false, OpenWriteOnly⟩ ⟨2⟩).resp.Flags = 7) ∧
    (∃ c : Writer,
      (Dir.Create ⟨[], [], 0o200⟩ dialOk ⟨['a'] ++ '.' :: stdoutSuffix, 0o644⟩ ⟨2⟩
        World.init).ret = .ok (⟨c⟩, ⟨c⟩) ∧
      (Dir.Create ⟨[], [], 0o200⟩ dialOk ⟨['a'] ++ '.' :: stdoutSuffix, 0o644⟩ ⟨2⟩
        World.init).resp.Flags = 7) :=
  have h := response_flags_after_create_and_open ⟨[], [], 0o200⟩ dialOk
    ⟨['a'] ++ '.' :: stdoutSuffix, 0o644⟩ ⟨2⟩ World.init
    ⟨⟨0, ⟨[], [], 30, ['a']⟩⟩⟩ ⟨false, OpenReadOnly⟩ ⟨2⟩
  have h' := response_flags_after_create_and_open ⟨[], [], 0o200⟩ dialOk
    ⟨['a'] ++ '.' :: stdoutSuffix, 0o644⟩ ⟨2⟩ World.init
    ⟨⟨0, ⟨[], [], 30, ['a']⟩⟩⟩ ⟨false, OpenWriteOnly ||| OpenAppend⟩ ⟨2⟩
  ⟨⟨rfl, rfl, rfl, by decide, by decide, by decide, by decide⟩,
    h.1 _ rfl, h.2.2.2.1 _ rfl,
    h'.2.2.2.2.2.1 rfl (by decide) (by decide),
    h.2.2.2.2.2.2.1,
    h.2.2.2.2.2.2.2.2 (by decide) (by decide) (Or.inr (fun _ => rfl))⟩

/-! ## The permission mask -/

theorem mainOpts_Permissions {slAddress : GoString} {perms : Int} {opts : Opts}
    (h : mainOpts slAddress perms = some opts) :
    opts.Permissions = (Int.land perms 0o222).toNat := by
  unfold mainOpts at h
  dsimp only at h
  split_ifs at h
  · simp only [Option.some.injEq] at h
    rw [← h]
  · simp only [Option.some.injEq] at h
    rw [← h]

theorem land_mask_eq_natCast (perms : Int) : ∃ m : Nat, Int.land perms 0o222 = (m : Int) := by
  cases perms with
  | ofNat n => exact ⟨n &&& 0o222, rfl⟩
  | negSucc n => exact ⟨Nat.ldiff 0o222 n, rfl⟩

theorem testBit_mask (i : Nat) :
    Nat.testBit 0o222 i = (decide (i = 1) || decide (i = 4) || decide (i = 7)) := by
  have h : (0o222 : Nat) = 2 ^ 1 ||| 2 ^ 4 ||| 2 ^ 7 := by decide
  rw [h, Nat.testBit_lor, Nat.testBit_lor, Nat.testBit_two_pow, Nat.testBit_two_pow,
    Nat.testBit_two_pow]
  by_cases h1 : i = 1
  · subst h1; simp
  · by_cases h4 : i = 4
    · subst h4; simp
    · by_cases h7 : i = 7
      · subst h7; simp
      · have h1' : ¬ 1 = i := fun e => h1 e.symm
        have h4' : ¬ 4 = i := fun e => h4 e.symm
        have h7' : ¬ 7 = i := fun e => h7 e.symm
        simp [h1, h4, h7, h1', h4', h7']

theorem testBit_land_mask (perms : Int) (i : Nat) :
    (Int.land perms 0o222).toNat.testBit i = (perms.testBit i && Nat.testBit 0o222 i) := by
  obtain ⟨m, hm⟩ := land_mask_eq_natCast perms
  have h := Int.testBit_land perms 0o222 i
  rw [hm] at h ⊢
  exact h

/-- C14: when `main` accepts the options, the mode `File.Attr` reports is the value of
`-perms` and-ed with octal 222: bit `i` of the mode is set exactly when bit `i` of the
value is set and `i` is 1, 4 or 7, so no read or execute bit and no bit outside the three
write bits is ever set and the mode is at most octal 222; masking the reported mode again
gives the same mode; and with the default value octal 200 the mode is octal 200. -/
theorem file_mode_is_perms_masked (slAddress : GoString) (perms : Int) (opts : Opts)
    (uid gid : Int) (now : Nat × Nat × Nat) (a : Attr)
    (hopts : mainOpts slAddress perms = some opts) :
    (File.Attr opts uid gid now a).1.Mode = (Int.land perms 0o222).toNat ∧
    ((File.Attr opts uid gid now a).1.Mode : Int) = Int.land perms 0o222 ∧
    (∀ i, (File.Attr opts uid gid now a).1.Mode.testBit i
      = (perms.testBit i && (decide (i = 1) || decide (i = 4) || decide (i = 7)))) ∧
    (File.Attr opts uid gid now a).1.Mode &&& 0o222 = (File.Attr opts uid gid now a).1.Mode ∧
    (File.Attr opts uid gid now a).1.Mode &&& 0o555 = 0 ∧
    (File.Attr opts uid gid now a).1.Mode ≤ 0o222 ∧
    (∀ opts2, mainOpts slAddress ((File.Attr opts uid gid now a).1.Mode : Int) = some opts2 →
      (File.Attr opts2 uid gid now a).1.Mode = (File.Attr opts uid gid now a).1.Mode) ∧
    (perms = 0o200 → (File.Attr opts uid gid now a).1.Mode = 0o200) := by
  have hmode : (File.Attr opts uid gid now a).1.Mode = (Int.land perms 0o222).toNat :=
    mainOpts_Permissions hopts
  obtain ⟨m, hm⟩ := land_mask_eq_natCast perms
  have hbits : ∀ i, (Int.land perms 0o222).toNat.testBit i
      = (perms.testBit i && (decide (i = 1) || decide (i = 4) || decide (i = 7))) := by
    intro i
    rw [testBit_land_mask, testBit_mask]
  have hand : (Int.land perms 0o222).toNat &&& 0o222 = (Int.land perms 0o222).toNat := by
    apply Nat.eq_of_testBit_eq
    intro i
    rw [Nat.testBit_and, testBit_land_mask]
    cases perms.testBit i <;> cases Nat.testBit 0o222 i <;> rfl
  rw [hmode]
  refine ⟨rfl, ?_, hbits, hand, ?_, ?_, ?_, ?_⟩
  · rw [hm]; rfl
  · have h0 : (0o222 : Nat) &&& 0o555 = 0 := by decide
    rw [← hand, Nat.land_assoc, h0]
    exact Nat.and_zero _
  · rw [← hand]
    exact Nat.and_le_right
  · intro opts2 h2
    have e2 : (File.Attr opts2 uid gid now a).1.Mode
        = (Int.land ((Int.land perms 0o222).toNat : Int) 0o222).toNat :=
      mainOpts_Permissions h2
    rw [e2]
    exact hand
  · intro hp
    rw [hp]
    rfl

theorem file_mode_is_perms_masked_witness :
    (mainOpts [] 0o777 = some ⟨[], [], 0o222⟩ ∧ mainOpts [] 0o200 = some ⟨[], [], 0o200⟩) ∧
    (File.Attr ⟨[], [], 0o222⟩ 1000 1000 (5, 6, 7) ⟨9, 0, 0, 0o777, 0, 0, 0⟩).1.Mode
      = (Int.land 0o777 0o222).toNat ∧
    (File.Attr ⟨[], [], 0o200⟩ 1000 1000 (5, 6, 7) ⟨9, 0, 0, 0o777, 0, 0, 0⟩).1.Mode = 0o200 ∧
    (File.Attr ⟨[], [], 0o222⟩ 1000 1000 (5, 6, 7) ⟨9, 0, 0, 0o777, 0, 0, 0⟩).1.Mode
      &&& 0o555 = 0 :=
  ⟨⟨by decide, by decide⟩,
    (file_mode_is_perms_masked [] 0o777 ⟨[], [], 0o222⟩ 1000 1000 (5, 6, 7)
      ⟨9, 0, 0, 0o777, 0, 0, 0⟩ (by decide)).1,
    (file_mode_is_perms_masked [] 0o200 ⟨[], [], 0o200⟩ 1000 1000 (5, 6, 7)
      ⟨9, 0, 0, 0o777, 0, 0, 0⟩ (by decide)).2.2.2.2.2.2.2 rfl,
    (file_mode_is_perms_masked [] 0o777 ⟨[], [], 0o222⟩ 1000 1000 (5, 6, 7)
      ⟨9, 0, 0, 0o777, 0, 0, 0⟩ (by decide)).2.2.2.2.1⟩

/-! ## The `-syslog` option -/

theorem Strings.sep_not_mem_of_mem_Split (s : GoString) (sep : Char) :
    ∀ p ∈ Strings.Split s sep, sep ∉ p := by
  induction s with
  | nil =>
    intro p hp
    have : p = [] := by simpa [Strings.Split] using hp
    rw [this]
    exact List.not_mem_nil _
  | cons c cs ih =>
    obtain ⟨q, qs, hq⟩ := Strings.Split_exists_cons cs sep
    intro p hp
    rw [Strings.Split_cons_eq, hq] at hp
    rw [hq] at ih
    split_ifs at hp with hc
    · rcases List.mem_cons.1 hp with e | e
      · rw [e]; exact List.not_mem_nil _
      · exact ih p e
    · simp only [List.headD_cons, List.tail_cons] at hp
      rcases List.mem_cons.1 hp with e | e
      · rw [e]
        intro hmem
        rcases List.mem_cons.1 hmem with e' | e'
        · exact hc e'.symm
        · exact ih q (List.mem_cons_self _ _) e'
      · exact ih p (List.mem_cons_of_mem _ e)

theorem Strings.Split_three {p a q : GoString} {sep : Char}
    (hp : sep ∉ p) (ha : sep ∉ a) (hq : sep ∉ q) :
    Strings.Split (p ++ sep :: (a ++ sep :: q)) sep = [p, a, q] := by
  have e : p ++ sep :: (a ++ sep :: q) = (p ++ sep :: a) ++ sep :: q := by simp
  rw [e, Strings.Split_append_sep _ hq, Strings.Split_append_sep _ ha,
    Strings.Split_of_not_mem hp]
  rfl

theorem Strings.of_Split_length_three {s : GoString} {sep : Char}
    (h : (Strings.Split s sep).length = 3) :
    ∃ p a q, Strings.Split s sep = [p, a, q] ∧ s = p ++ sep :: (a ++ sep :: q) ∧
      sep ∉ p ∧ sep ∉ a ∧ sep ∉ q := by
  have hall := Strings.sep_not_mem_of_mem_Split s sep
  have hj := Strings.Join_Split s sep
  match hs : Strings.Split s sep, h with
  | [p, a, q], _ =>
    rw [hs] at hall hj
    refine ⟨p, a, q, rfl, ?_, hall p (by simp), hall a (by simp), hall q (by simp)⟩
    rw [← hj]
    simp [Strings.Join]

/-- The option check of lines 47-54 lets a value of three pieces pass and stores the
first piece as network and the second piece, `:` and the third piece as address. -/
theorem mainOpts_of_three_pieces {slAddress : GoString} (perms : Int) (hne : slAddress ≠ [])
    {p a q : GoString} (hv : slAddress = p ++ ':' :: (a ++ ':' :: q))
    (hp : ':' ∉ p) (ha : ':' ∉ a) (hq : ':' ∉ q) :
    mainOpts slAddress perms
      = some { SyslogNetwork := p, SyslogAddress := a ++ ':' :: q,
               Permissions := (Int.land perms 0o222).toNat } := by
  have hs := Strings.Split_three hp ha hq
  rw [← hv] at hs
  unfold mainOpts
  simp [hne, hs]

/-- C13, as the code has it: `main` gets past the check of a non-empty value of `-syslog`
only if the value is three pieces separated by two `:`, each piece free of `:` and
possibly empty, and then the network is the first piece and the address is the second
piece, `:` and the third piece; every non-empty value that is not of that shape stops
`main`; and with the option left out both the network and the address are empty. -/
theorem syslog_option_needs_three_pieces (slAddress : GoString) (perms : Int)
    (hne : slAddress ≠ []) :
    (∀ opts, mainOpts slAddress perms = some opts →
      ∃ p a q, slAddress = p ++ ':' :: (a ++ ':' :: q) ∧ ':' ∉ p ∧ ':' ∉ a ∧ ':' ∉ q ∧
        opts.SyslogNetwork = p ∧ opts.SyslogAddress = a ++ ':' :: q) ∧
    ((¬ ∃ p a q, slAddress = p ++ ':' :: (a ++ ':' :: q) ∧ ':' ∉ p ∧ ':' ∉ a ∧ ':' ∉ q) →
      mainOpts slAddress perms = none) ∧
    mainOpts [] perms
      = some { SyslogNetwork := [], SyslogAddress := [],
               Permissions := (Int.land perms 0o222).toNat } := by
  have hconv : ∀ opts, mainOpts slAddress perms = some opts →
      ∃ p a q, slAddress = p ++ ':' :: (a ++ ':' :: q) ∧ ':' ∉ p ∧ ':' ∉ a ∧ ':' ∉ q ∧
        opts.SyslogNetwork = p ∧ opts.SyslogAddress = a ++ ':' :: q := by
    intro opts h
    by_cases h3 : (Strings.Split slAddress ':').length = 3
    · obtain ⟨p, a, q, -, hv, hp, ha, hq⟩ := Strings.of_Split_length_three h3
      rw [mainOpts_of_three_pieces perms hne hv hp ha hq] at h
      simp only [Option.some.injEq] at h
      exact ⟨p, a, q, hv, hp, ha, hq, by rw [← h], by rw [← h]⟩
    · unfold mainOpts at h
      simp [hne, h3] at h
  refine ⟨hconv, ?_, ?_⟩
  · intro hno
    cases hm : mainOpts slAddress perms with
    | none => rfl
    | some opts =>
      obtain ⟨p, a, q, hv, hp, ha, hq, -⟩ := hconv opts hm
      exact absurd ⟨p, a, q, hv, hp, ha, hq⟩ hno
  · unfold mainOpts
    simp

theorem syslog_option_needs_three_pieces_witness :
    (['t', 'c', 'p', ':', 'h', ':', '5', '1', '4'] ≠ ([] : GoString) ∧
      mainOpts ['t', 'c', 'p', ':', 'h', ':', '5', '1', '4'] 0o200
        = some ⟨['t', 'c', 'p'], ['h', ':', '5', '1', '4'], 0o200⟩) ∧
    (∃ p a q, ['t', 'c', 'p', ':', 'h', ':', '5', '1', '4'] = p ++ ':' :: (a ++ ':' :: q) ∧
      ':' ∉ p ∧ ':' ∉ a ∧ ':' ∉ q ∧
      ['t', 'c', 'p'] = p ∧ ['h', ':', '5', '1', '4'] = a ++ ':' :: q) ∧
    mainOpts ['t', 'c', 'p', ':', 'h'] 0o200 = none ∧
    mainOpts [] 0o200 = some ⟨[], [], (Int.land 0o200 0o222).toNat⟩ :=
  ⟨⟨by decide, by decide⟩,
    (syslog_option_needs_three_pieces ['t', 'c', 'p', ':', 'h', ':', '5', '1', '4'] 0o200
      (by decide)).1 ⟨['t', 'c', 'p'], ['h', ':', '5', '1', '4'], 0o200⟩ (by decide),
    (syslog_option_needs_three_pieces ['t', 'c', 'p', ':', 'h'] 0o200 (by decide)).2.1
      (fun ⟨_, _, _, hv, hp, ha, hq⟩ => by
        have h1 := mainOpts_of_three_pieces 0o200 (by decide) hv hp ha hq
        have h2 : mainOpts ['t', 'c', 'p', ':', 'h'] 0o200 = none := by decide
        rw [h2] at h1
        exact Option.noConfusion h1),
    (syslog_option_needs_three_pieces ['t', 'c', 'p', ':', 'h', ':', '5', '1', '4'] 0o200
      (by decide)).2.2⟩

/-- C13, as the claim has it, fails: the values `::` and `:h:1`, which name no protocol,
are accepted, with an empty network; so being accepted does not mean that the value
starts with a non-empty protocol. -/
theorem syslog_option_without_protocol_is_accepted :
    mainOpts [':', ':'] 0o200 = some ⟨[], [':'], 0o200⟩ ∧
    mainOpts [':', 'h', ':', '1'] 0o200 = some ⟨[], ['h', ':', '1'], 0o200⟩ ∧
    ¬ (∀ (slAddress : GoString) (perms : Int) (opts : Opts), slAddress ≠ [] →
        mainOpts slAddress perms = some opts →
        ∃ protocol rest, protocol ≠ [] ∧ ':' ∉ protocol ∧
          slAddress = protocol ++ ':' :: rest) := by
  refine ⟨by decide, by decide, fun h => ?_⟩
  obtain ⟨protocol, rest, hne, hno, hv⟩ :=
    h [':', ':'] 0o200 ⟨[], [':'], 0o200⟩ (by decide) (by decide)
  cases protocol with
  | nil => exact hne rfl
  | cons c cs =>
    have hc : ':' = c := by
      have := congrArg List.head? hv
      simpa using this
    exact hno (by rw [hc]; exact List.mem_cons_self _ _)

/-! ## What the map holds in every reachable state -/

theorem LoggerMap.mem_of_get {m : LoggerMap} {k : GoString} {c : Writer}
    (h : m.get k = some c) : (k, c) ∈ m := by
  induction m with
  | nil => exact Option.noConfusion h
  | cons e rest ih =>
    obtain ⟨k0, v0⟩ := e
    by_cases h0 : k0 = k
    · have hg : LoggerMap.get ((k0, v0) :: rest) k = some v0 := by simp [LoggerMap.get, h0]
      rw [hg] at h
      simp only [Option.some.injEq] at h
      rw [← h, ← h0]
      exact List.mem_cons_self _ _
    · have hg : LoggerMap.get ((k0, v0) :: rest) k = LoggerMap.get rest k := by
        simp [LoggerMap.get, h0]
      rw [hg] at h
      exact List.mem_cons_of_mem _ (ih h)

theorem getElem?_append_of_eq_some {α : Type} {l : List α} (ext : List α) {i : Nat} {x : α}
    (h : l[i]? = some x) : (l ++ ext)[i]? = some x := by
  obtain ⟨hi, -⟩ := List.getElem?_eq_some.1 h
  rw [List.getElem?_append_left hi]
  exact h

/-- Whatever the request, `Dir.Create` either leaves the map as it was and the dial log
as it was or longer, or it appends to the map one entry for a name `l.stdout` or
`l.stderr`, bound to the connection it has just dialed with the values derived from that
name. -/
theorem Dir.Create_step (opts : Opts) (dial : Dialer) (req : CreateRequest)
    (resp : CreateResponse) (w : World) :
    ((Dir.Create opts dial req resp w).world.loggers = w.loggers ∧
      ∃ ext, (Dir.Create opts dial req resp w).world.dialed = w.dialed ++ ext) ∨
    (∃ l suf priority, req.Name = l ++ '.' :: suf ∧
      (suf = stdoutSuffix ∧ priority = LOG_INFO ∨ suf = stderrSuffix ∧ priority = LOG_ERR) ∧
      (Dir.Create opts dial req resp w).world.loggers = w.loggers ++
        [(req.Name, { addr := w.dialed.length,
                      call := { network := opts.SyslogNetwork, raddr := opts.SyslogAddress,
                                priority := priority ||| LOG_DAEMON, tag := l } })] ∧
      (Dir.Create opts dial req resp w).world.dialed = w.dialed ++
        [{ network := opts.SyslogNetwork, raddr := opts.SyslogAddress,
           priority := priority ||| LOG_DAEMON, tag := l }]) := by
  by_cases hreg : FileMode.IsRegular req.Mode = true
  · by_cases hV : IsLogName req.Name
    · obtain ⟨l, suf, hn, hv⟩ := (IsLogName_iff _).1 hV
      cases hg : w.loggers.get req.Name with
      | some item =>
        rw [Dir.Create_hit opts dial req resp w hreg hn hv hg]
        exact Or.inl ⟨rfl, [], by simp⟩
      | none =>
        have hp : ∃ priority, suf = stdoutSuffix ∧ priority = LOG_INFO ∨
            suf = stderrSuffix ∧ priority = LOG_ERR := by
          rcases hv with h | h
          · exact ⟨LOG_INFO, Or.inl ⟨h, rfl⟩⟩
          · exact ⟨LOG_ERR, Or.inr ⟨h, rfl⟩⟩
        obtain ⟨priority, hp⟩ := hp
        obtain ⟨f1, f2⟩ := Dir.Create_fresh opts dial req resp w hreg hn hp hg
        cases hd : dial { network := opts.SyslogNetwork, raddr := opts.SyslogAddress,
                          priority := priority ||| LOG_DAEMON, tag := l } with
        | some err =>
          rw [f1 err hd]
          exact Or.inl ⟨rfl, _, rfl⟩
        | none =>
          rw [f2 hd]
          refine Or.inr ⟨l, suf, priority, hn, hp, ?_, rfl⟩
          exact LoggerMap.set_of_get_none _ _ hg
    · rw [(Dir.Create_of_not_IsLogName opts dial req resp w hreg hV).1]
      exact Or.inl ⟨rfl, [], by simp⟩
  · have hnr : FileMode.IsRegular req.Mode = false := by
      cases h : FileMode.IsRegular req.Mode
      · rfl
      · exact absurd h hreg
    rw [Dir.Create_not_regular opts dial req resp w hnr]
    exact Or.inl ⟨rfl, [], by simp⟩

theorem Consistent_init (opts : Opts) : Consistent opts World.init := by
  intro k c h
  exact absurd h (List.not_mem_nil _)

theorem Dir.Create_Consistent (opts : Opts) (dial : Dialer) (req : CreateRequest)
    (resp : CreateResponse) (w : World) (h : Consistent opts w) :
    Consistent opts (Dir.Create opts dial req resp w).world := by
  intro k c hk
  rcases Dir.Create_step opts dial req resp w with
    ⟨e1, ext, e2⟩ | ⟨l, suf, priority, hn, hp, e1, e2⟩
  · rw [e1] at hk
    obtain ⟨l, suf, priority, h1, h2, h3, h4⟩ := h k c hk
    exact ⟨l, suf, priority, h1, h2, h3, by rw [e2]; exact getElem?_append_of_eq_some _ h4⟩
  · rw [e1] at hk
    rcases List.mem_append.1 hk with hold | hnew
    · obtain ⟨l', suf', priority', h1, h2, h3, h4⟩ := h k c hold
      exact ⟨l', suf', priority', h1, h2, h3,
        by rw [e2]; exact getElem?_append_of_eq_some _ h4⟩
    · have hkc := List.mem_singleton.1 hnew
      simp only [Prod.mk.injEq] at hkc
      obtain ⟨hk', hc'⟩ := hkc
      refine ⟨l, suf, priority, by rw [hk']; exact hn, hp, by rw [hc'], ?_⟩
      rw [e2, hc']
      exact List.getElem?_concat_length _ _

theorem Op.run_Consistent (opts : Opts) (op : Op) (w : World) (h : Consistent opts w) :
    Consistent opts (op.run opts w) := by
  cases op with
  | create dial req resp => exact Dir.Create_Consistent opts dial req resp w h
  | write fh req resp slResult => exact h
  | dirAttr a => exact h
  | lookup req => exact h
  | readDirAll => exact h
  | fileAttr f uid gid now a => exact h
  | fileOpen f req resp => exact h
  | release fh => exact h

theorem runOps_Consistent (opts : Opts) (ops : List Op) (w : World)
    (h : Consistent opts w) : Consistent opts (runOps opts ops w) := by
  induction ops generalizing w with
  | nil => exact h
  | cons op rest ih => exact ih (op.run opts w) (Op.run_Consistent opts op w h)

/-- C17: in every state reached from the empty map by a sequence of operations, with the
options fixed, a key `k` bound to a connection `c` is `l.stdout` or `l.stderr`: splitting
it on `.` gives at least two pieces, the last piece is the suffix and joining the others
gives `l`; `c` is recorded in the dial log at its address and was dialed with the network
and address of the options, the priority of the suffix with `LOG_DAEMON`, and the tag
`l`, which is the very call a regular-file create request for `k` makes when `k` is not
in the map; so a regular-file create request for `k` in that state reuses `c`, dials
nothing and leaves the state as it is. -/
theorem reachable_entries_match_their_names (opts : Opts) (ops : List Op) (k : GoString)
    (c : Writer) (h : (runOps opts ops World.init).loggers.get k = some c) :
    ∃ l suf priority,
      k = l ++ '.' :: suf ∧
      (suf = stdoutSuffix ∧ priority = LOG_INFO ∨ suf = stderrSuffix ∧ priority = LOG_ERR) ∧
      2 ≤ (Strings.Split k '.').length ∧
      (Strings.Split k '.').getD ((Strings.Split k '.').length - 1) [] = suf ∧
      Strings.Join ((Strings.Split k '.').take ((Strings.Split k '.').length - 1)) ['.'] = l ∧
      c.call = { network := opts.SyslogNetwork, raddr := opts.SyslogAddress,
                 priority := priority ||| LOG_DAEMON, tag := l } ∧
      (runOps opts ops World.init).dialed[c.addr]? = some c.call ∧
      (∀ (dial : Dialer) (req : CreateRequest) (resp : CreateResponse) (w : World),
        req.Name = k → FileMode.IsRegular req.Mode = true → w.loggers.get k = none →
        (Dir.Create opts dial req resp w).world.dialed = w.dialed ++ [c.call]) ∧
      (∀ (dial : Dialer) (req : CreateRequest) (resp : CreateResponse),
        req.Name = k → FileMode.IsRegular req.Mode = true →
        Dir.Create opts dial req resp (runOps opts ops World.init) =
          { ret := .ok ({ file := c }, { sl := c }),
            resp := { Flags := resp.Flags ||| (OpenNonSeekable ||| OpenDirectIO) },
            world := runOps opts ops World.init }) := by
  obtain ⟨l, suf, priority, hk, hp, hc, hd⟩ :=
    runOps_Consistent opts ops World.init (Consistent_init opts) k c (LoggerMap.mem_of_get h)
  have hv : suf = stdoutSuffix ∨ suf = stderrSuffix := by
    rcases hp with h' | h'
    · exact Or.inl h'.1
    · exact Or.inr h'.1
  have hs : '.' ∉ suf := by
    rcases hv with h' | h'
    · rw [h']; exact dot_not_mem_stdoutSuffix
    · rw [h']; exact dot_not_mem_stderrSuffix
  obtain ⟨p1, p2, p3⟩ := Strings.parts_append_sep l hs
  rw [← hk] at p1 p2 p3
  refine ⟨l, suf, priority, hk, hp, by omega, p2, p3, hc, hd, ?_, ?_⟩
  · intro dial req resp w hname hreg hg
    have hn : req.Name = l ++ '.' :: suf := hname.trans hk
    obtain ⟨f1, f2⟩ := Dir.Create_fresh opts dial req resp w hreg hn hp (by rw [hname]; exact hg)
    rw [hc]
    cases hdial : dial { network := opts.SyslogNetwork, raddr := opts.SyslogAddress,
                         priority := priority ||| LOG_DAEMON, tag := l } with
    | some err => rw [f1 err hdial]
    | none => rw [f2 hdial]
  · intro dial req resp hname hreg
    exact Dir.Create_hit opts dial req resp _ hreg (hname.trans hk) hv (by rw [hname]; exact h)

theorem reachable_entries_match_their_names_witness :
    ((runOps ⟨[], [], 0o200⟩
        [Op.create dialOk ⟨['a'] ++ '.' :: stdoutSuffix, 0o644⟩ ⟨0⟩,
         Op.create (dialFail (.transport 111)) ⟨['b'] ++ '.' :: stdoutSuffix, 0o644⟩ ⟨0⟩,
         Op.create dialOk ⟨['a'] ++ '.' :: stderrSuffix, 0o644⟩ ⟨0⟩,
         Op.create dialOk ⟨['a'] ++ '.' :: stderrSuffix, 0o644⟩ ⟨0⟩]
        World.init).loggers.get (['a'] ++ '.' :: stderrSuffix)
      = some ⟨2, ⟨[], [], 27, ['a']⟩⟩) ∧
    ∃ l suf priority,
      ['a'] ++ '.' :: stderrSuffix = l ++ '.' :: suf ∧
      (suf = stdoutSuffix ∧ priority = LOG_INFO ∨ suf = stderrSuffix ∧ priority = LOG_ERR) ∧
      (⟨[], [], 27, ['a']⟩ : DialCall) = ⟨[], [], priority ||| LOG_DAEMON, l⟩ := by
  refine ⟨by decide, ?_⟩
  obtain ⟨l, suf, priority, h1, h2, -, -, -, h3, -⟩ :=
    reachable_entries_match_their_names ⟨[], [], 0o200⟩
      [Op.create dialOk ⟨['a'] ++ '.' :: stdoutSuffix, 0o644⟩ ⟨0⟩,
       Op.create (dialFail (.transport 111)) ⟨['b'] ++ '.' :: stdoutSuffix, 0o644⟩ ⟨0⟩,
       Op.create dialOk ⟨['a'] ++ '.' :: stderrSuffix, 0o644⟩ ⟨0⟩,
       Op.create dialOk ⟨['a'] ++ '.' :: stderrSuffix, 0o644⟩ ⟨0⟩]
      (['a'] ++ '.' :: stderrSuffix) ⟨2, ⟨[], [], 27, ['a']⟩⟩ (by decide)
  exact ⟨l, suf, priority, h1, h2, h3⟩

/-! ## Two creations of one name that overlap -/

theorem Dir.createFinish_createRead (opts : Opts) (dial : Dialer) (req : CreateRequest)
    (resp : CreateResponse) (w : World) (parts : List GoString) (priority : Nat) :
    Dir.createFinish opts dial req resp w parts priority (Dir.createRead req w)
      = Dir.createWith opts dial req resp w parts priority := rfl

/-- Cut at the map read and run without anything in between, `Dir.Create` is
`Dir.Create`. -/
theorem Dir.CreateCut_same (opts : Opts) (dial : Dialer) (req : CreateRequest)
    (resp : CreateResponse) (w : World) :
    Dir.CreateCut opts dial req resp w w = Dir.Create opts dial req resp w := by
  unfold Dir.CreateCut Dir.Create
  simp only [Dir.createFinish_createRead]

/-- C15: two create requests for `a.stdout`, a name not in the map, that overlap: caller
A reads the map, caller B reads the map, A dials and writes the map, B dials and writes
the map. Both dial, so the dial log holds two calls for the name; A gets a node and a
handle on connection 0 and B on connection 1; the map ends up with connection 1 only, so
connection 0 is held by A alone. Run one after the other the two steps of a caller are
`Dir.Create` itself. -/
theorem overlapping_creates_dial_twice :
    (∀ (opts : Opts) (dial : Dialer) (req : CreateRequest) (resp : CreateResponse)
      (w : World), Dir.CreateCut opts dial req resp w w = Dir.Create opts dial req resp w) ∧
    Dir.createRead ⟨['a'] ++ '.' :: stdoutSuffix, 0o644⟩ World.init = none ∧
    (Dir.CreateCut ⟨[], [], 0o200⟩ dialOk ⟨['a'] ++ '.' :: stdoutSuffix, 0o644⟩ ⟨0⟩
      World.init World.init).ret
      = .ok (⟨⟨0, ⟨[], [], 30, ['a']⟩⟩⟩, ⟨⟨0, ⟨[], [], 30, ['a']⟩⟩⟩) ∧
    (Dir.CreateCut ⟨[], [], 0o200⟩ dialOk ⟨['a'] ++ '.' :: stdoutSuffix, 0o644⟩ ⟨0⟩
      World.init
      (Dir.CreateCut ⟨[], [], 0o200⟩ dialOk ⟨['a'] ++ '.' :: stdoutSuffix, 0o644⟩ ⟨0⟩
        World.init World.init).world).ret
      = .ok (⟨⟨1, ⟨[], [], 30, ['a']⟩⟩⟩, ⟨⟨1, ⟨[], [], 30, ['a']⟩⟩⟩) ∧
    (Dir.CreateCut ⟨[], [], 0o200⟩ dialOk ⟨['a'] ++ '.' :: stdoutSuffix, 0o644⟩ ⟨0⟩
      World.init
      (Dir.CreateCut ⟨[], [], 0o200⟩ dialOk ⟨['a'] ++ '.' :: stdoutSuffix, 0o644⟩ ⟨0⟩
        World.init World.init).world).world.dialed
      = [⟨[], [], 30, ['a']⟩, ⟨[], [], 30, ['a']⟩] ∧
    (Dir.CreateCut ⟨[], [], 0o200⟩ dialOk ⟨['a'] ++ '.' :: stdoutSuffix, 0o644⟩ ⟨0⟩
      World.init
      (Dir.CreateCut ⟨[], [], 0o200⟩ dialOk ⟨['a'] ++ '.' :: stdoutSuffix, 0o644⟩ ⟨0⟩
        World.init World.init).world).world.loggers
      = [(['a'] ++ '.' :: stdoutSuffix, ⟨1, ⟨[], [], 30, ['a']⟩⟩)] :=
  ⟨Dir.CreateCut_same, rfl, rfl, rfl, rfl, rfl⟩

end OpenrcSyslogFs
